import Mathlib

/-!
Shallow embedding of the apiware request-binding library (Go) in Lean 4.

The embedding follows the source files `struct.go`, `paramapi.go` and
`apiware.go` of the repository.  Go strings are modelled as Lean strings
(the inputs of interest are ASCII, where Go byte indexing and Lean char
indexing agree; splitting separators are the ASCII characters comma,
parenthesis and colon).  Go `float64` arithmetic in `validateRange` is
modelled with exact rationals: the constants compared there are decimal
literals whose distances are orders of magnitude above the rounding error
of binary floating point, and the fixed tolerance `accuracy = 1e-7` is
kept.  Go panics are modelled with `Except String`, where the payload is
the panic message; `recover` becomes a `match` on that value.  Fallible
Go functions returning `error` are modelled with `Option` holding the
error value.
-/

deriving instance DecidableEq for Except

namespace Apiware

/-- Splits a character list at every occurrence of the separator
character, keeping empty segments, exactly like the Go function
`strings.Split` does for a one-character separator. -/
def splitOnChar (c : Char) : List Char → List (List Char)
  | [] => [[]]
  | x :: xs =>
    if x = c then [] :: splitOnChar c xs
    else
      match splitOnChar c xs with
      | h :: t => (x :: h) :: t
      | [] => [[x]]

theorem splitOnChar_ne_nil (c : Char) (l : List Char) : splitOnChar c l ≠ [] := by
  induction l with
  | nil => simp [splitOnChar]
  | cons x xs ih =>
    simp only [splitOnChar]
    by_cases h : x = c
    · simp [h]
    · simp only [if_neg h]
      cases hs : splitOnChar c xs with
      | nil => simp
      | cons a t => simp

/-- Embedding of Go `strings.Split(s, sep)` for a one-character
separator. -/
def goSplit (c : Char) (s : String) : List String :=
  (splitOnChar c s.data).map String.mk

/-- Character-count length; for the ASCII strings handled by the tag
grammar this coincides with the Go byte length `len(s)`. -/
def goLen (s : String) : Nat := s.data.length

/-- Removes the last character, the model of the Go slice
`s[:len(s)-1]` on an ASCII string. -/
def strDropLast (s : String) : String := String.mk s.data.dropLast

/-- A Go `map[string]string` is modelled as an association list with
unique keys; lookups return the first (and only) binding of a key. -/
abbrev TagMap := List (String × String)

/-- Lookup in the map model, `v, ok := m[k]`. -/
def tagsGet (m : TagMap) (k : String) : Option String :=
  (m.find? (fun p => p.1 == k)).map (fun p => p.2)

/-- Lookup defaulting to the zero string, the Go expression `m[k]`. -/
def tagsGetD (m : TagMap) (k : String) : String := (tagsGet m k).getD ""

/-- Membership test, `_, ok := m[k]`. -/
def tagsHas (m : TagMap) (k : String) : Bool := (tagsGet m k).isSome

/-- Assignment `m[k] = v`: overwrites the binding of `k` when present,
otherwise appends it. -/
def tagsSet : TagMap → String → String → TagMap
  | [], k, v => [(k, v)]
  | (k0, v0) :: rest, k, v =>
    if k0 = k then (k, v) :: rest else (k0, v0) :: tagsSet rest k v

/-- One iteration of the loop body of `parseTags` (struct.go:339-347):
the option is split at the parenthesis character; a two-part split with
more than one character after the parenthesis stores the head as key and
the remainder minus its final character as value, every other shape
stores the full option text as a bare key. -/
def parseTagOption (m : TagMap) (v : String) : TagMap :=
  match goSplit '(' v with
  | [k, rest] =>
    if goLen rest > 1 then tagsSet m k (strDropLast rest)
    else tagsSet m v ""
  | _ => tagsSet m v ""

/-- Embedding of `parseTags` (struct.go:336-348): split the annotation
on commas and fold every option into the map. -/
def parseTags (s : String) : TagMap :=
  (goSplit ',' s).foldl parseTagOption []

/-- A recovered Go panic carries the printed panic value. -/
abbrev PanicOr (α : Type) := Except String α

/-- Embedding of `parseTuple` (struct.go:754-771): splits the tuple on
the colon; a one-part split duplicates the part, a two-part split with
at least one non-empty side returns both sides, everything else panics. -/
def parseTuple (tuple : String) : PanicOr (String × String) :=
  match goSplit ':' tuple with
  | [a] => if goLen a > 0 then .ok (a, a) else .error "invalid validation tuple"
  | [a, b] =>
    if goLen a > 0 ∨ goLen b > 0 then .ok (a, b)
    else .error "invalid validation tuple"
  | _ => .error "invalid validation tuple"

/-- Value of a decimal digit character, `none` for non-digits. -/
def digitVal (c : Char) : Option Nat :=
  if c.isDigit then some (c.toNat - 48) else none

/-- Reads a non-empty run of decimal digits as a natural number. -/
def readDigits : List Char → Option Nat
  | [] => none
  | l =>
    l.foldl (fun acc c =>
      match acc, digitVal c with
      | some n, some d => some (n * 10 + d)
      | _, _ => none) (some 0)

/-- Embedding of `strconv.Atoi` and `strconv.ParseInt(s, 10, 64)`:
optional sign, then decimal digits, with the int64 range check; errors
are reported with the strconv error text. -/
def goParseInt (s : String) : Except String Int :=
  let syntaxErr : Except String Int :=
    .error ("strconv.ParseInt: parsing " ++ s ++ ": invalid syntax")
  let rangeErr : Except String Int :=
    .error ("strconv.ParseInt: parsing " ++ s ++ ": value out of range")
  let (neg, digits) :=
    match s.data with
    | '-' :: rest => (true, rest)
    | '+' :: rest => (false, rest)
    | l => (false, l)
  match readDigits digits with
  | none => syntaxErr
  | some n =>
    let v : Int := if neg then -(n : Int) else (n : Int)
    if v < -(2 ^ 63) ∨ (2 ^ 63) ≤ v then rangeErr else .ok v

/-- The character-level half of the `strconv.ParseFloat(s, 64)` model:
optional sign, integer digits, optional fractional digits, optional
decimal exponent, returned as
`(negative, integer part, fraction part, fraction length, exponent)`. -/
def goParseFloatParts (s : String) : Option (Bool × Nat × Nat × Nat × Int) :=
  let (neg, rest) :=
    match s.data with
    | '-' :: r => (true, r)
    | '+' :: r => (false, r)
    | l => (false, l)
  let (mantPart, expPart) :=
    match splitOnChar 'e' (rest.map Char.toLower) with
    | [m] => (m, ([] : List Char))
    | [m, e] => (m, e)
    | _ => (([] : List Char), ([] : List Char))
  let (intPart, fracPart) :=
    match splitOnChar '.' mantPart with
    | [i] => (i, ([] : List Char))
    | [i, f] => (i, f)
    | _ => (([] : List Char), ['x'])
  if intPart = [] ∧ fracPart = [] then none
  else
    let intOk : Option Nat := if intPart = [] then some 0 else readDigits intPart
    let fracOk : Option Nat := if fracPart = [] then some 0 else readDigits fracPart
    let expOk : Except String Int :=
      if expPart = [] then .ok 0 else goParseInt (String.mk expPart)
    match intOk, fracOk, expOk with
    | some ip, some fp, .ok ex => some (neg, ip, fp, fracPart.length, ex)
    | _, _, _ => none

/-- Exact-rational reading of `strconv.ParseFloat(s, 64)` on decimal
literals.  The binary rounding step of the Go function is not modelled;
every comparison made with its results in this development has a margin
far wider than that rounding error. -/
def goParseFloat (s : String) : Except String ℚ :=
  match goParseFloatParts s with
  | none => .error ("strconv.ParseFloat: parsing " ++ s ++ ": invalid syntax")
  | some (neg, ip, fp, fracLen, ex) =>
    let mant : ℚ := (ip : ℚ) + (fp : ℚ) / ((10 : ℚ) ^ fracLen)
    let signed : ℚ := if neg then -mant else mant
    .ok (signed * (10 : ℚ) ^ ex)

/-- Modelled from the spec: the error constructor `NewError` lives in a
repository file that is not among the sources; per section 7 of the
specification it produces an error value naming the schema (record
type), the field (or a placeholder) and a human-readable reason.  It is
modelled as a record of those three strings. -/
structure Err where
  api : String
  param : String
  reason : String
  deriving DecidableEq, Repr

/-- Modelled from the spec: constructor call `NewError(api, param, reason)`. -/
def NewError (api param reason : String) : Err := ⟨api, param, reason⟩

/-- Validation failure kinds; the constants `ValidationErrorValueTooShort`
and friends live in a repository file that is not among the sources.
The repository test suite pins the rendered texts (for example
`p too short`), so each kind is modelled by its message suffix. -/
def ValidationErrorValueTooShort : String := "too short"

def ValidationErrorValueTooLong : String := "too long"

def ValidationErrorValueTooSmall : String := "too small"

def ValidationErrorValueTooBig : String := "too big"

def ValidationErrorValueNotSet : String := "not set"

def ValidationErrorValueNotMatch : String := "not match"

/-- Modelled from the spec: `NewValidationError(kind, field)` renders as
the field name, a space and the kind suffix (the repository test suite
checks texts such as `p too short` and `b too small`). -/
def NewValidationError (kind field : String) : String :=
  field ++ " " ++ kind

/-- The upper-bound half of `validateLen` (struct.go:784-792). -/
def lenUpper (s b field : String) : PanicOr (Option String) :=
  if goLen b > 0 then
    match goParseInt b with
    | .error e => .error e
    | .ok max =>
      if (goLen s : Int) > max then
        .ok (some (NewValidationError ValidationErrorValueTooLong field))
      else .ok none
  else .ok none

/-- Embedding of `validateLen` (struct.go:773-794): parse the tuple
(possibly panicking), then compare the string length against the parsed
bounds; a malformed bound makes `strconv.Atoi` fail and the error is
re-raised as a panic. -/
def validateLen (s tuple field : String) : PanicOr (Option String) :=
  match parseTuple tuple with
  | .error p => .error p
  | .ok (a, b) =>
    if goLen a > 0 then
      match goParseInt a with
      | .error e => .error e
      | .ok min =>
        if (goLen s : Int) < min then
          .ok (some (NewValidationError ValidationErrorValueTooShort field))
        else lenUpper s b field
    else lenUpper s b field

/-- The fixed comparison tolerance `accuracy` (struct.go:796). -/
def accuracy : ℚ := 1 / 10000000

/-- The upper-bound half of `validateRange` (struct.go:809-817). -/
def rangeUpper (f64 : ℚ) (b field : String) : PanicOr (Option String) :=
  if goLen b > 0 then
    match goParseFloat b with
    | .error e => .ok (some e)
    | .ok max =>
      if Max.max f64 max = f64 ∧ |f64 - max| > accuracy then
        .ok (some (NewValidationError ValidationErrorValueTooBig field))
      else .ok none
  else .ok none

/-- Embedding of `validateRange` (struct.go:798-819) over exact
rationals: parse the tuple (possibly panicking); for each non-empty
bound, parse it as a floating literal (a parse failure is returned as an
ordinary error, not a panic), then fail too-small when the value is the
minimum of itself and the bound yet farther than `accuracy` from it, and
symmetrically too-big against the upper bound. -/
def validateRange (f64 : ℚ) (tuple field : String) : PanicOr (Option String) :=
  match parseTuple tuple with
  | .error p => .error p
  | .ok (a, b) =>
    if goLen a > 0 then
      match goParseFloat a with
      | .error e => .ok (some e)
      | .ok min =>
        if Min.min f64 min = f64 ∧ |f64 - min| > accuracy then
          .ok (some (NewValidationError ValidationErrorValueTooSmall field))
        else rangeUpper f64 b field
    else rangeUpper f64 b field

/-- The regular-expression engine `regexp.MatchString` is an external
collaborator; the embedding takes it as a parameter returning either a
compile error or the match verdict. -/
abbrev RegexpMatch := String → String → Except String Bool

/-- Embedding of `validateRegexp` (struct.go:821-830). -/
def validateRegexp (rx : RegexpMatch) (s reg field : String) : Option String :=
  match rx reg s with
  | .error e => some e
  | .ok matched =>
    if matched then none
    else some (NewValidationError ValidationErrorValueNotMatch field)

/-- Classification of the Go values a bindable field can hold, enough to
drive `StructField.String`, `StructField.Float` and
`StructField.IsZero`.  Integer values are carried as the Go accessors
return them (`Value.Int`, `Value.Uint`), floats as exact rationals,
byte slices and cookie records by their content. -/
inductive GoValue where
  | vstr : String → GoValue
  | vint : Int → GoValue
  | vuint : Nat → GoValue
  | vfloat : ℚ → GoValue
  | vbool : Bool → GoValue
  | vstrSlice : List String → GoValue
  | vbytes : String → GoValue
  | vcookie : String → GoValue
  | vfile : String → GoValue
  deriving DecidableEq, Repr

/-- Embedding of `StructField.String` (struct.go:735-738): the type
assertion to `string` succeeds only on a plain string value. -/
def goString : GoValue → Option String
  | .vstr s => some s
  | _ => none

/-- Embedding of `StructField.Float` (struct.go:742-752): signed and
unsigned integer kinds and float kinds convert, everything else fails. -/
def goFloat : GoValue → Option ℚ
  | .vint i => some (i : ℚ)
  | .vuint n => some (n : ℚ)
  | .vfloat q => some q
  | _ => none

/-- Embedding of `StructField.IsZero` (struct.go:728-731): the interface
comparison against the zero value; comparing values of a slice type
panics at run time in Go (uncomparable type), which the model raises as
a panic. -/
def goIsZero : GoValue → PanicOr Bool
  | .vstr s => .ok (s = "")
  | .vint i => .ok (i = 0)
  | .vuint n => .ok (n = 0)
  | .vfloat q => .ok (q = 0)
  | .vbool b => .ok (b = false)
  | .vstrSlice _ => .error "comparing uncomparable type []string"
  | .vbytes _ => .error "comparing uncomparable type []uint8"
  | .vcookie s => .ok (s = "")
  | .vfile s => .ok (s = "")

/-- Tag keys (struct.go:84-87). -/
def TAG_PARAM : String := "param"

def TAG_REGEXP : String := "regexp"

def TAG_ERR : String := "err"

def TAG_IGNORE_PARAM : String := "-"

/-- The data of one compiled field that `StructField.Validate` reads:
its wire name, its tag map and its current value. -/
structure VField where
  Name : String
  Tags : TagMap
  Value : GoValue
  deriving Repr

/-- The length check of `StructField.Validate` (struct.go:671-678): run
only when a `len` tag is present and the value converts to a string. -/
def lenCheck (f : VField) : PanicOr (Option String) :=
  match tagsGet f.Tags "len" with
  | some tuple =>
    match goString f.Value with
    | some s => validateLen s tuple f.Name
    | none => .ok none
  | none => .ok none

/-- The range check of `StructField.Validate` (struct.go:680-687). -/
def rangeCheck (f : VField) : PanicOr (Option String) :=
  match tagsGet f.Tags "range" with
  | some tuple =>
    match goFloat f.Value with
    | some q => validateRange q tuple f.Name
    | none => .ok none
  | none => .ok none

/-- The nonzero check of `StructField.Validate` (struct.go:689-693). -/
def nonzeroCheck (f : VField) : PanicOr (Option String) :=
  if tagsHas f.Tags "nonzero" then
    match goIsZero f.Value with
    | .error p => .error p
    | .ok true => .ok (some (NewValidationError ValidationErrorValueNotSet f.Name))
    | .ok false => .ok none
  else .ok none

/-- The regexp check of `StructField.Validate` (struct.go:695-702). -/
def regexpCheck (rx : RegexpMatch) (f : VField) : PanicOr (Option String) :=
  match tagsGet f.Tags TAG_REGEXP with
  | some reg =>
    match goString f.Value with
    | some s => .ok (validateRegexp rx s reg f.Name)
    | none => .ok none
  | none => .ok none

/-- Sequencing of the checks: stop at the first panic or first error,
mirroring the early `return err` statements. -/
def checkSeq (a : PanicOr (Option String)) (b : Unit → PanicOr (Option String)) :
    PanicOr (Option String) :=
  match a with
  | .error p => .error p
  | .ok (some e) => .ok (some e)
  | .ok none => b ()

/-- The body of `StructField.Validate` (struct.go:670-704) before the
deferred recovery runs: length, range, nonzero and pattern checks in
order, each aborting the body on failure or panic. -/
def fieldValidateBody (rx : RegexpMatch) (f : VField) : PanicOr (Option String) :=
  checkSeq (lenCheck f) (fun _ =>
    checkSeq (rangeCheck f) (fun _ =>
      checkSeq (nonzeroCheck f) (fun _ => regexpCheck rx f)))

/-- Embedding of `StructField.Validate` (struct.go:658-705) including
its deferred function.  When an `err` tag is present, a non-nil error is
replaced by that custom text; at every panic site of the body the named
return value `err` is still nil (each earlier check completed returning
nil, and the panicking helper had not yet returned a value), so in the
panic case the custom-message branch observes `err == nil` and leaves it
nil.  Without the `err` tag a recovered panic is converted into an error
carrying the printed panic value. -/
def fieldValidate (rx : RegexpMatch) (f : VField) : Option String :=
  match tagsGet f.Tags TAG_ERR with
  | some errStr =>
    match fieldValidateBody rx f with
    | .ok (some _) => some errStr
    | .ok none => none
    | .error _ => none
  | none =>
    match fieldValidateBody rx f with
    | .ok r => r
    | .error p => some p

/-! ## Schema compilation -/

/-- Memory constants (struct.go:89-91). -/
def MB : Int := 1048576

def defaultMaxMemory : Int := 32 * MB

/-- The recognised channel names, the map `ParamTypes` (struct.go:94-103). -/
def ParamTypes (s : String) : Bool :=
  s == "path" || s == "query" || s == "formData" || s == "body" ||
  s == "header" || s == "cookie"

/-- Type strings used by the compiler (struct.go:142-149). -/
def fileTypeString : String := "multipart.FileHeader"

def cookieTypeString : String := "http.Cookie"

def fasthttpCookieTypeString : String := "fasthttp.Cookie"

def stringTypeString : String := "string"

def bytesTypeString : String := "[]byte"

def bytes2TypeString : String := "[]uint8"

/-- The reflection kind of a field type, as far as the compiler inspects
it: pointer, struct, or anything else. -/
inductive GoKind where
  | kptr
  | kstruct
  | kother
  deriving DecidableEq, Repr

/-- The statically known data of one declared struct field: identifier,
anonymous flag and the raw tag lookups the compiler performs. -/
structure FieldMeta where
  fname : String
  anonymous : Bool
  tagParam : Option String
  tagRegexp : Option String
  tagErr : Option String
  deriving DecidableEq, Repr

mutual
/-- A model of `reflect.Type` restricted to what the compiler reads:
the kind, `Type.String()`, `Type.Name()` and, for struct types, the
declared field list in order. -/
inductive GoType where
  | atom (kind : GoKind) (tstr tname : String)
  | struc (tstr tname : String) (fields : GoFields)

/-- The declared field list of a struct type, kept as a mutually
defined type so that the compiler walk is structurally recursive. -/
inductive GoFields where
  | nil
  | cons (fm : FieldMeta) (ft : GoType) (rest : GoFields)
end

def GoType.kind : GoType → GoKind
  | .atom k _ _ => k
  | .struc _ _ _ => .kstruct

def GoType.str : GoType → String
  | .atom _ s _ => s
  | .struc s _ _ => s

def GoType.name : GoType → String
  | .atom _ _ n => n
  | .struc _ n _ => n

/-- Compiled field descriptor, `StructField` of struct.go:107-115; the
reflective `Value` is replaced by the two type identifications the
binder and validator read from it. -/
structure StructField where
  Index : Nat
  Name : String
  isRequired : Bool
  isFile : Bool
  Tags : TagMap
  typeStr : String
  typeName : String
  deriving DecidableEq, Repr

/-- Error messages issued by `addFields` (struct.go). -/
def ptrErrMsg : String := "field can not be a pointer"

def fileShapeErrMsg (ts : String) : String :=
  "when field type is `" ++ ts ++ "`, param type must be `formData`"

def cookieShapeErrMsg (ts : String) : String :=
  "when field type is `" ++ ts ++ "`, param type must be `cookie`"

def conflictErrMsg : String :=
  "`formData` and `body` params can not exist at the same time"

def multiBodyErrMsg : String := "there should not be more than one `body` param"

def cookieWhitelistErrMsg : String :=
  "invalid field type for `cookie` param, refer to the following: `http.Cookie`, `fasthttp.Cookie`, `string`, `[]byte` or `[]uint8`"

def invalidTypeErrMsg : String :=
  "invalid param type, refer to the following: `path`, `query`, `formData`, `body`, `header` or `cookie`"

def maxmbErrMsg : String := "invalid `maxmb` tag, it must be positive integer"

/-- The whitelist of type strings a cookie-channel field may have
(struct.go:281-285). -/
def cookieWhitelist (ts : String) : Bool :=
  ts == cookieTypeString || ts == fasthttpCookieTypeString ||
  ts == stringTypeString || ts == bytesTypeString || ts == bytes2TypeString

/-- The `switch paramType` of `addFields` (struct.go:264-290): updates
the `(hasFormData, hasBody)` pair, adds the implicit required option
for the path channel, and rejects channel conflicts, non-whitelisted
cookie shapes and unrecognised channels. -/
def channelSwitch (invalidMsg : String) (tname fname paramType fieldTypeString : String)
    (parsedTags : TagMap) (hasFormData hasBody : Bool) :
    Except Err (Bool × Bool × TagMap) :=
  if paramType = "formData" then
    if hasBody then .error (NewError tname fname conflictErrMsg)
    else .ok (true, hasBody, parsedTags)
  else if paramType = "body" then
    if hasFormData then .error (NewError tname fname conflictErrMsg)
    else if hasBody then .error (NewError tname fname multiBodyErrMsg)
    else .ok (hasFormData, true, parsedTags)
  else if paramType = "path" then
    .ok (hasFormData, hasBody, tagsSet parsedTags "required" "required")
  else if paramType = "cookie" then
    if cookieWhitelist fieldTypeString then .ok (hasFormData, hasBody, parsedTags)
    else .error (NewError tname fname cookieWhitelistErrMsg)
  else if ParamTypes paramType then .ok (hasFormData, hasBody, parsedTags)
  else .error (NewError tname fname invalidMsg)

/-- The `maxmb` folding of `addFields` (struct.go:292-300): a present
option is parsed as a 64-bit integer (a parse failure rejects the
field) and raises the running maximum when it exceeds it. -/
def maxmbStep (tname fname : String) (tags : TagMap) (maxMB : Int) :
    Except Err Int :=
  match tagsGet tags "maxmb" with
  | some a =>
    match goParseInt a with
    | .error _ => .error (NewError tname fname maxmbErrMsg)
    | .ok n => .ok (if n > maxMB then n else maxMB)
  | none => .ok maxMB

/-- Merging of the separate `regexp` and `err` struct tags into the
parsed option map (struct.go:302-308). -/
def mergeExtraTags (fm : FieldMeta) (tags : TagMap) : TagMap :=
  let tags1 :=
    match fm.tagRegexp with
    | some r => tagsSet tags TAG_REGEXP r
    | none => tags
  match fm.tagErr with
  | some e => tagsSet tags1 TAG_ERR e
  | none => tags1

/-- Descriptor construction of `addFields` (struct.go:312-324): wire
name from the `name` option or the naming function, the file flag from
`Value.Type().Name()`, the required flag from option membership. -/
def mkStructField (pnf : String → String) (i : Nat) (fm : FieldMeta)
    (ft : GoType) (tags : TagMap) : StructField :=
  { Index := i
    Name :=
      match tagsGet tags "name" with
      | some n => n
      | none => pnf fm.fname
    isRequired := tagsHas tags "required"
    isFile := ft.name = fileTypeString
    Tags := tags
    typeStr := ft.str
    typeName := ft.name }

/-- Processing of one tag-carrying field of `addFields`
(struct.go:245-326), after the skip cases have been dispatched: the
pointer check, the file/cookie shape checks, the channel switch, the
`maxmb` folding and the descriptor construction.  Returns the updated
`(hasFormData, hasBody, maxMemoryMB)` state and the new descriptor. -/
def addOneField (pnf : String → String) (tname : String) (i : Nat)
    (fm : FieldMeta) (ft : GoType) (tag : String)
    (hasFormData hasBody : Bool) (maxMB : Int) :
    Except Err (Bool × Bool × Int × StructField) :=
  if ft.kind = .kptr then .error (NewError tname fm.fname ptrErrMsg)
  else
    let parsedTags := parseTags tag
    let paramType := tagsGetD parsedTags "type"
    let fieldTypeString := ft.str
    if fieldTypeString = fileTypeString ∧ paramType ≠ "formData" then
      .error (NewError tname fm.fname (fileShapeErrMsg fieldTypeString))
    else if (fieldTypeString = cookieTypeString ∨ fieldTypeString = fasthttpCookieTypeString) ∧
        paramType ≠ "cookie" then
      .error (NewError tname fm.fname (cookieShapeErrMsg fieldTypeString))
    else
      match channelSwitch invalidTypeErrMsg tname fm.fname paramType fieldTypeString parsedTags hasFormData hasBody with
      | .error e => .error e
      | .ok (hasFormData2, hasBody2, tags0) =>
        match maxmbStep tname fm.fname tags0 maxMB with
        | .error e => .error e
        | .ok maxMB2 =>
          .ok (hasFormData2, hasBody2, maxMB2, mkStructField pnf i fm ft (mergeExtraTags fm tags0))

/-- The field walk of `addFields` (struct.go:224-334): iterate the
declared fields of one record in order, threading the per-call state
`(hasFormData, hasBody, maxMemoryMB)` and the accumulated descriptor
list that the shared schema object collects.  An untagged anonymous
struct field is flattened by a recursive call that starts fresh local
state (only the descriptor accumulator is shared with the caller). -/
def addFieldsAux (pnf : String → String) (tname : String) :
    GoFields → Nat → Bool → Bool → Int → List StructField →
    Except Err (List StructField × Bool × Bool × Int)
  | .nil, _, hasFormData, hasBody, maxMB, acc => .ok (acc, hasFormData, hasBody, maxMB)
  | .cons fm ft rest, i, hasFormData, hasBody, maxMB, acc =>
    match fm.tagParam, fm.anonymous, ft with
    | none, true, .struc ststr _ subFields =>
      match addFieldsAux pnf ststr subFields 0 false false 0 acc with
      | .error e => .error e
      | .ok (acc2, _, _, _) =>
        addFieldsAux pnf tname rest (i + 1) hasFormData hasBody maxMB acc2
    | none, _, _ => addFieldsAux pnf tname rest (i + 1) hasFormData hasBody maxMB acc
    | some tag, _, _ =>
      if tag = TAG_IGNORE_PARAM then
        addFieldsAux pnf tname rest (i + 1) hasFormData hasBody maxMB acc
      else
        match addOneField pnf tname i fm ft tag hasFormData hasBody maxMB with
        | .error e => .error e
        | .ok (hasFormData2, hasBody2, maxMB2, fd) =>
          addFieldsAux pnf tname rest (i + 1) hasFormData2 hasBody2 maxMB2 (acc ++ [fd])

/-- Embedding of `addFields` applied to a record type as `ToStruct`
does (struct.go:188-199); `ToStruct` guarantees the argument is a
struct type, given here by its type string and declared field list.
The walk produces the flattened field list, and the final `MaxMemory`
assignment of the outermost call decides the schema limit (every
recursive call for an embedded record also assigns it, but the outer
call overwrites that value when it finishes). -/
def addFields (pnf : String → String) (tstr : String)
    (flds : GoFields) :
    Except Err (List StructField × Int) :=
  match addFieldsAux pnf tstr flds 0 false false 0 [] with
  | .error e => .error e
  | .ok (acc, _, _, maxMB) =>
    .ok (acc, if maxMB > 0 then maxMB * MB else defaultMaxMemory)

/-! ## The ParamsAPI compiler (paramapi.go) -/

/-- Compiled parameter descriptor, the `Param` record built by
`ParamsAPI.addFields` (paramapi.go:239-251); the reflective `rawValue`
is replaced by the type string the binder reads from it. -/
structure Param where
  indexPath : List Nat
  name : String
  isRequired : Bool
  isFile : Bool
  tags : TagMap
  typeStr : String
  deriving DecidableEq, Repr

/-- Error messages specific to `ParamsAPI.addFields`. -/
def invalidTypeErrMsgP : String :=
  "invalid field type, refer to the following: `path`, `query`, `formData`, `body`, `header` or `cookie`"

def lenTagErrMsg : String := "invalid `len` tag for non-string field"

def rangeTagErrMsg : String := "invalid `range` tag for non-number field"

def regexpTagErrMsg : String := "invalid `regexp` tag for non-string field"

/-- The numeric type strings accepted for a `range` tag
(paramapi.go:210-212). -/
def numericTypeStrings : List String :=
  ["int", "int8", "int16", "int32", "int64",
   "uint", "uint8", "uint16", "uint32", "uint64", "float32", "float64",
   "[]int", "[]int8", "[]int16", "[]int32", "[]int64",
   "[]uint", "[]uint8", "[]uint16", "[]uint32", "[]uint64",
   "[]float32", "[]float64"]

/-- Processing of one tag-carrying field of `ParamsAPI.addFields`
(paramapi.go:160-258): the pointer check, the file/cookie shape checks,
the channel switch, the `len`/`range`/`regexp` legality checks, the
`maxmb` folding and the descriptor construction. -/
def addOneParam (pnf : String → String) (tname : String)
    (indexPath : List Nat) (fm : FieldMeta) (ft : GoType) (tag : String)
    (hasFormData hasBody : Bool) (maxMB : Int) :
    Except Err (Bool × Bool × Int × Param) :=
  if ft.kind = .kptr then .error (NewError tname fm.fname ptrErrMsg)
  else
    let parsedTags := parseTags tag
    let paramType := tagsGetD parsedTags "type"
    let paramTypeString := ft.str
    if paramTypeString = fileTypeString ∧ paramType ≠ "formData" then
      .error (NewError tname fm.fname (fileShapeErrMsg paramTypeString))
    else if (paramTypeString = cookieTypeString ∨ paramTypeString = fasthttpCookieTypeString) ∧
        paramType ≠ "cookie" then
      .error (NewError tname fm.fname (cookieShapeErrMsg paramTypeString))
    else
      match channelSwitch invalidTypeErrMsgP tname fm.fname paramType paramTypeString parsedTags hasFormData hasBody with
      | .error e => .error e
      | .ok (hasFormData2, hasBody2, tags0) =>
        if tagsHas tags0 "len" ∧ paramTypeString ≠ "string" ∧ paramTypeString ≠ "[]string" then
          .error (NewError tname fm.fname lenTagErrMsg)
        else if tagsHas tags0 "range" ∧ ¬ numericTypeStrings.contains paramTypeString then
          .error (NewError tname fm.fname rangeTagErrMsg)
        else
          match
            (match fm.tagRegexp with
             | some r =>
               if paramTypeString ≠ "string" ∧ paramTypeString ≠ "[]string" then
                 Except.error (NewError tname fm.fname regexpTagErrMsg)
               else .ok (tagsSet tags0 TAG_REGEXP r)
             | none => .ok tags0) with
          | .error e => .error e
          | .ok tags1 =>
            match maxmbStep tname fm.fname tags1 maxMB with
            | .error e => .error e
            | .ok maxMB2 =>
              let tags2 :=
                match fm.tagErr with
                | some e => tagsSet tags1 TAG_ERR e
                | none => tags1
              let fd : Param :=
                { indexPath := indexPath
                  name :=
                    match tagsGet tags2 "name" with
                    | some n => n
                    | none => pnf fm.fname
                  isRequired := tagsHas tags2 "required"
                  isFile := paramTypeString = fileTypeString
                  tags := tags2
                  typeStr := paramTypeString }
              .ok (hasFormData2, hasBody2, maxMB2, fd)

/-- The field walk of `ParamsAPI.addFields` (paramapi.go:135-266),
threading the same per-call state as the struct-engine walk and
recording each descriptor ownership path `parentIndexPath ++ [i]`. -/
def addParamsAux (pnf : String → String) (tname : String)
    (parentIndexPath : List Nat) :
    GoFields → Nat → Bool → Bool → Int → List Param →
    Except Err (List Param × Bool × Bool × Int)
  | .nil, _, hasFormData, hasBody, maxMB, acc => .ok (acc, hasFormData, hasBody, maxMB)
  | .cons fm ft rest, i, hasFormData, hasBody, maxMB, acc =>
    match fm.tagParam, fm.anonymous, ft with
    | none, true, .struc ststr _ subFields =>
      match addParamsAux pnf ststr (parentIndexPath ++ [i]) subFields 0 false false 0 acc with
      | .error e => .error e
      | .ok (acc2, _, _, _) =>
        addParamsAux pnf tname parentIndexPath rest (i + 1) hasFormData hasBody maxMB acc2
    | none, _, _ =>
      addParamsAux pnf tname parentIndexPath rest (i + 1) hasFormData hasBody maxMB acc
    | some tag, _, _ =>
      if tag = TAG_IGNORE_PARAM then
        addParamsAux pnf tname parentIndexPath rest (i + 1) hasFormData hasBody maxMB acc
      else
        match addOneParam pnf tname (parentIndexPath ++ [i]) fm ft tag hasFormData hasBody maxMB with
        | .error e => .error e
        | .ok (hasFormData2, hasBody2, maxMB2, fd) =>
          addParamsAux pnf tname parentIndexPath rest (i + 1) hasFormData2 hasBody2 maxMB2 (acc ++ [fd])

/-- Embedding of `ParamsAPI.addFields` as `NewParamsAPI` invokes it
(paramapi.go:114-118) on a struct type given by its type string and
declared field list, yielding the parameter list and the `maxMemory`
value the outermost call assigns last. -/
def paramsAddFields (pnf : String → String) (tstr : String)
    (flds : GoFields) :
    Except Err (List Param × Int) :=
  match addParamsAux pnf tstr [] flds 0 false false 0 [] with
  | .error e => .error e
  | .ok (acc, _, _, maxMB) =>
    .ok (acc, if maxMB > 0 then maxMB * MB else defaultMaxMemory)

/-! ## Binding -/

/-- Lookup in a multi-valued map such as `url.Values` or
`http.Header`: `vs, ok := m[k]`. -/
def mmGet (m : List (String × List String)) (k : String) : Option (List String) :=
  (m.find? (fun p => p.1 == k)).map (fun p => p.2)

/-- Lookup in a single-valued map such as the decoded path parameters. -/
def smGet (m : List (String × String)) (k : String) : Option String :=
  (m.find? (fun p => p.1 == k)).map (fun p => p.2)

/-- The type-coercion engine `convertAssign` is repository code outside
the given sources; the binder treats it as an external function that
takes the current slot value and the source strings and either panics,
returns an error text, or returns the new slot value. -/
abbrev ConvertAssign := GoValue → List String → PanicOr (Except String GoValue)

/-- The pluggable body-decode function, taking the slot value and the
raw body bytes. -/
abbrev BodyDecode := GoValue → String → PanicOr (Except String GoValue)

/-- Embedding of a compiled `Struct` (struct.go:118-127). -/
structure Struct where
  Name : String
  Fields : List StructField
  MaxMemory : Int

/-- The reads `Struct.BindParam` performs on a `net/http` request,
after the pluggable path-decode function has produced the path map:
the query multi-map, the multipart parse outcome (an error, or the
merged form value multi-map together with the uploaded-file multi-map
when a multipart form is present), the body read outcome, the header
multi-map and the cookie lookup (the cookie given by its serialized
text). -/
structure HRequest where
  pathParams : List (String × String)
  query : List (String × List String)
  formParse : Except String ((List (String × List String)) × Option (List (String × List String)))
  bodyRead : Except String String
  header : List (String × List String)
  cookie : String → Option String

def missingPathMsg : String := "missing path param"

def missingQueryMsg : String := "missing query param"

def missingFormDataMsg : String := "missing formData param"

def missingBodyMsg : String := "missing body param"

def missingHeaderMsg : String := "missing header param"

def missingCookieMsg : String := "missing cookie param"

def invalidCookieBindMsg : String :=
  "invalid cookie param type, it must be `http.Cookie`, `string` or `[]byte`"

/-- Wraps a `convertAssign` outcome the way every `err =
convertAssign(...)` site of `Struct.BindParam` does: a panic
propagates, an error halts with `NewError(name, field, err.Error())`,
success continues with the written slot. -/
def caWrap (mName fName : String) (r : PanicOr (Except String GoValue)) :
    PanicOr (Except Err GoValue) :=
  match r with
  | .error p => .error p
  | .ok (.error e) => .ok (.error (NewError mName fName e))
  | .ok (.ok v) => .ok (.ok v)

/-- One iteration of the field loop of `Struct.BindParam`
(struct.go:393-505), acting on the slot of the current field: panic,
halt with a bind error, or continue with the (possibly rewritten) slot
value.  The source caches `req.URL.Query()` and the parsed form in
local variables; both reads are idempotent on the request model, so the
cache is dropped. -/
def bindStep (ca : ConvertAssign) (bdf : BodyDecode) (mName : String)
    (req : HRequest) (f : StructField) (v : GoValue) :
    PanicOr (Except Err GoValue) :=
  let ty := tagsGetD f.Tags "type"
  if ty = "path" then
    match smGet req.pathParams f.Name with
    | none => .ok (.error (NewError mName f.Name missingPathMsg))
    | some pv => caWrap mName f.Name (ca v [pv])
  else if ty = "query" then
    match mmGet req.query f.Name with
    | some vals => caWrap mName f.Name (ca v vals)
    | none =>
      if f.isRequired then .ok (.error (NewError mName f.Name missingQueryMsg))
      else .ok (.ok v)
  else if ty = "formData" then
    match req.formParse with
    | .error e => .ok (.error (NewError mName f.Name e))
    | .ok (formValues, files) =>
      match files with
      | some fmap =>
        if f.isFile then
          match (mmGet fmap f.Name).getD [] with
          | [] =>
            if f.isRequired then .ok (.error (NewError mName f.Name missingFormDataMsg))
            else .ok (.ok v)
          | fh :: _ => .ok (.ok (.vfile fh))
        else
          match mmGet formValues f.Name with
          | some vals => caWrap mName f.Name (ca v vals)
          | none =>
            if f.isRequired then .ok (.error (NewError mName f.Name missingFormDataMsg))
            else .ok (.ok v)
      | none =>
        match mmGet formValues f.Name with
        | some vals => caWrap mName f.Name (ca v vals)
        | none =>
          if f.isRequired then .ok (.error (NewError mName f.Name missingFormDataMsg))
          else .ok (.ok v)
  else if ty = "body" then
    match req.bodyRead with
    | .ok body =>
      match bdf v body with
      | .error p => .error p
      | .ok (.error e) => .ok (.error (NewError mName f.Name e))
      | .ok (.ok v2) => .ok (.ok v2)
    | .error _ =>
      if f.isRequired then .ok (.error (NewError mName f.Name missingBodyMsg))
      else .ok (.ok v)
  else if ty = "header" then
    match mmGet req.header f.Name with
    | some vals => caWrap mName f.Name (ca v vals)
    | none =>
      if f.isRequired then .ok (.error (NewError mName f.Name missingHeaderMsg))
      else .ok (.ok v)
  else if ty = "cookie" then
    match req.cookie f.Name with
    | some c =>
      if f.typeStr = cookieTypeString then .ok (.ok (.vcookie c))
      else if f.typeStr = stringTypeString then .ok (.ok (.vstr c))
      else if f.typeStr = bytesTypeString ∨ f.typeStr = bytes2TypeString then
        .ok (.ok (.vbytes c))
      else .ok (.error (NewError mName f.Name invalidCookieBindMsg))
    | none =>
      if f.isRequired then .ok (.error (NewError mName f.Name missingCookieMsg))
      else .ok (.ok v)
  else .ok (.ok v)

/-- The field loop of `Struct.BindParam` over the descriptor list and
the parallel slot list: the first panic or bind error aborts, otherwise
the rewritten slot list is produced. -/
def bindLoop (ca : ConvertAssign) (bdf : BodyDecode) (mName : String)
    (req : HRequest) : List (StructField × GoValue) →
    PanicOr (Except Err (List GoValue))
  | [] => .ok (.ok [])
  | (f, v) :: rest =>
    match bindStep ca bdf mName req f v with
    | .error p => .error p
    | .ok (.error e) => .ok (.error e)
    | .ok (.ok v2) =>
      match bindLoop ca bdf mName req rest with
      | .error p => .error p
      | .ok (.error e) => .ok (.error e)
      | .ok (.ok vs) => .ok (.ok (v2 :: vs))

/-- Embedding of `Struct.Validate` (struct.go:646-654): the first field
whose `StructField.Validate` fails aborts with its error wrapped as
`NewError(model.Name, field.Name, err.Error())`. -/
def structValidate (rx : RegexpMatch) (mName : String) :
    List (StructField × GoValue) → Option Err
  | [] => none
  | (f, v) :: rest =>
    match fieldValidate rx { Name := f.Name, Tags := f.Tags, Value := v } with
    | some e => some (NewError mName f.Name e)
    | none => structValidate rx mName rest

/-- Embedding of `Struct.BindParam` (struct.go:379-507): the deferred
recovery turns any panic of the field loop (or of the validation pass,
which cannot panic) into `NewError(model.Name, "?", panic text)`;
otherwise the loop error, or the validation verdict, is returned. -/
def BindParam (ca : ConvertAssign) (bdf : BodyDecode) (rx : RegexpMatch)
    (m : Struct) (req : HRequest) (slots : List GoValue) : Option Err :=
  match bindLoop ca bdf m.Name req (m.Fields.zip slots) with
  | .error p => some (NewError m.Name "?" p)
  | .ok (.error e) => some e
  | .ok (.ok slots2) => structValidate rx m.Name (m.Fields.zip slots2)

/-! ## Binding through ParamsAPI (paramapi.go) -/

/-- Embedding of `ParamsAPI` (paramapi.go:44-57), keeping the fields
`BindFields` reads. -/
structure ParamsAPIModel where
  name : String
  params : List Param
  maxMemory : Int

/-- The reads `ParamsAPI.BindFields` performs on a `net/http` request:
the `ParseForm` outcome, the parsed `req.Form` multi-map (queried for
both the query and the formData channels), the multipart parse outcome
(an error, or the uploaded-file multi-map when present), the body read
outcome, the header multi-map and the cookie lookup. -/
structure PRequest where
  parseFormErr : Option String
  form : List (String × List String)
  multipartParse : Except String (Option (List (String × List String)))
  bodyRead : Except String String
  header : List (String × List String)
  cookie : String → Option String

/-- The per-field validator `Param.validate` is repository code outside
the given sources; `BindFields` treats it as an external function that
may panic, fail with an error value, or accept the value. -/
abbrev ParamValidate := Param → GoValue → PanicOr (Option Err)

/-- One iteration of the field loop of `ParamsAPI.BindFields`
(paramapi.go:433-531) without the trailing per-field validation:
panic, halt with a bind error, or continue with the slot value. -/
def bindFieldsStep (ca : ConvertAssign) (bdf : BodyDecode) (mName : String)
    (req : PRequest) (pathParams : List (String × String))
    (p : Param) (v : GoValue) : PanicOr (Except Err GoValue) :=
  let ty := tagsGetD p.tags "type"
  if ty = "path" then
    match smGet pathParams p.name with
    | none => .ok (.error (NewError mName p.name missingPathMsg))
    | some pv => caWrap mName p.name (ca v [pv])
  else if ty = "query" then
    match mmGet req.form p.name with
    | some vals => caWrap mName p.name (ca v vals)
    | none =>
      if p.isRequired then .ok (.error (NewError mName p.name missingQueryMsg))
      else .ok (.ok v)
  else if ty = "formData" then
    match req.multipartParse with
    | .error e => .ok (.error (NewError mName p.name e))
    | .ok files =>
      match files with
      | some fmap =>
        if p.isFile then
          match (mmGet fmap p.name).getD [] with
          | [] =>
            if p.isRequired then .ok (.error (NewError mName p.name missingFormDataMsg))
            else .ok (.ok v)
          | fh :: _ => .ok (.ok (.vfile fh))
        else
          match mmGet req.form p.name with
          | some vals => caWrap mName p.name (ca v vals)
          | none =>
            if p.isRequired then .ok (.error (NewError mName p.name missingFormDataMsg))
            else .ok (.ok v)
      | none =>
        match mmGet req.form p.name with
        | some vals => caWrap mName p.name (ca v vals)
        | none =>
          if p.isRequired then .ok (.error (NewError mName p.name missingFormDataMsg))
          else .ok (.ok v)
  else if ty = "body" then
    match req.bodyRead with
    | .ok body =>
      match bdf v body with
      | .error pn => .error pn
      | .ok (.error e) => .ok (.error (NewError mName p.name e))
      | .ok (.ok v2) => .ok (.ok v2)
    | .error _ =>
      if p.isRequired then .ok (.error (NewError mName p.name missingBodyMsg))
      else .ok (.ok v)
  else if ty = "header" then
    match mmGet req.header p.name with
    | some vals => caWrap mName p.name (ca v vals)
    | none =>
      if p.isRequired then .ok (.error (NewError mName p.name missingHeaderMsg))
      else .ok (.ok v)
  else if ty = "cookie" then
    match req.cookie p.name with
    | some c =>
      if p.typeStr = cookieTypeString then .ok (.ok (.vcookie c))
      else if p.typeStr = stringTypeString then .ok (.ok (.vstr c))
      else if p.typeStr = bytesTypeString ∨ p.typeStr = bytes2TypeString then
        .ok (.ok (.vbytes c))
      else .ok (.error (NewError mName p.name invalidCookieBindMsg))
    | none =>
      if p.isRequired then .ok (.error (NewError mName p.name missingCookieMsg))
      else .ok (.ok v)
  else .ok (.ok v)

/-- The field loop of `ParamsAPI.BindFields` including the per-field
`param.validate(value)` call that follows each resolution. -/
def bindFieldsLoop (ca : ConvertAssign) (bdf : BodyDecode)
    (pvalidate : ParamValidate) (mName : String) (req : PRequest)
    (pathParams : List (String × String)) :
    List (Param × GoValue) → PanicOr (Except Err (List GoValue))
  | [] => .ok (.ok [])
  | (p, v) :: rest =>
    match bindFieldsStep ca bdf mName req pathParams p v with
    | .error pn => .error pn
    | .ok (.error e) => .ok (.error e)
    | .ok (.ok v2) =>
      match pvalidate p v2 with
      | .error pn => .error pn
      | .ok (some e) => .ok (.error e)
      | .ok none =>
        match bindFieldsLoop ca bdf pvalidate mName req pathParams rest with
        | .error pn => .error pn
        | .ok (.error e) => .ok (.error e)
        | .ok (.ok vs) => .ok (.ok (v2 :: vs))

/-- Embedding of `ParamsAPI.BindFields` (paramapi.go:412-533): a
`ParseForm` failure is reported before the deferred recovery is
installed; afterwards any panic of the field loop becomes
`NewError(paramsAPI.name, "?", panic text)`. -/
def BindFields (ca : ConvertAssign) (bdf : BodyDecode)
    (pvalidate : ParamValidate) (papi : ParamsAPIModel) (req : PRequest)
    (pathParams : List (String × String)) (fields : List GoValue) : Option Err :=
  match req.parseFormErr with
  | some e => some (NewError papi.name "*" e)
  | none =>
    match bindFieldsLoop ca bdf pvalidate papi.name req pathParams
        (papi.params.zip fields) with
    | .error p => some (NewError papi.name "?" p)
    | .ok (.error e) => some e
    | .ok (.ok _) => none

/-! ## Specification-side predicates used to state the claims -/

/-- The channel an annotated field declares: `none` for untagged or
ignored fields, otherwise the `type` option of its parsed annotation. -/
def fieldChannel (fm : FieldMeta) : Option String :=
  match fm.tagParam with
  | some tag =>
    if tag = TAG_IGNORE_PARAM then none else some (tagsGetD (parseTags tag) "type")
  | none => none

/-- The channels declared by the direct fields of one record level. -/
def levelChannels : GoFields → List String
  | .nil => []
  | .cons fm _ rest =>
    match fieldChannel fm with
    | some c => c :: levelChannels rest
    | none => levelChannels rest

/-- A formData/body conflict among the direct fields of one record
level: both channels present, or the body channel present twice. -/
def levelConflict (flds : GoFields) : Bool :=
  ((levelChannels flds).contains "formData" && (levelChannels flds).contains "body")
  || decide (2 ≤ (levelChannels flds).count "body")

/-- A formData/body conflict among the direct fields of some record
level reachable by the compiler walk: the given level, or any level of
an embedded anonymous record reached through an untagged field. -/
def anyLevelConflict : GoFields → Bool
  | .nil => false
  | .cons fm ft rest =>
    (match fm.tagParam, fm.anonymous, ft with
     | none, true, .struc _ _ sub => levelConflict sub || anyLevelConflict sub
     | _, _, _ => false)
    || anyLevelConflict rest

/-- An error reason produced only by the formData/body mutual-exclusion
checks. -/
def conflictReason (s : String) : Prop :=
  s = conflictErrMsg ∨ s = multiBodyErrMsg

/-- The running form of the per-level mutual-exclusion check: walking
the direct fields of one level in order with the local
`hasFormData`/`hasBody` flags of the call, some field reaches the
channel switch with a flag that makes it throw. -/
def conflictPendingB (hFD hB : Bool) : GoFields → Bool
  | .nil => false
  | .cons fm _ rest =>
    match fieldChannel fm with
    | some pt =>
      if pt = "formData" then hB || conflictPendingB true hB rest
      else if pt = "body" then hFD || hB || conflictPendingB hFD true rest
      else conflictPendingB hFD hB rest
    | none => conflictPendingB hFD hB rest

/-- An illegal shape/channel pairing on one annotated field: a
file-shaped field off the formData channel, a cookie-record-shaped
field off the cookie channel, or a cookie-channel field whose shape is
outside the whitelist. -/
def illegalPairing (fm : FieldMeta) (ft : GoType) : Bool :=
  match fieldChannel fm with
  | none => false
  | some pt =>
    (ft.str == fileTypeString && pt != "formData") ||
    ((ft.str == cookieTypeString || ft.str == fasthttpCookieTypeString) && pt != "cookie") ||
    (pt == "cookie" && !cookieWhitelist ft.str)

/-- An illegal pairing on some annotated field reachable by the
compiler walk. -/
def anyIllegalPairing : GoFields → Bool
  | .nil => false
  | .cons fm ft rest =>
    illegalPairing fm ft
    || (match fm.tagParam, fm.anonymous, ft with
        | none, true, .struc _ _ sub => anyIllegalPairing sub
        | _, _, _ => false)
    || anyIllegalPairing rest

/-- An error reason produced only by the shape/channel pairing checks. -/
def pairingReason (s : String) : Prop :=
  s = fileShapeErrMsg fileTypeString ∨ s = cookieShapeErrMsg cookieTypeString ∨
  s = cookieShapeErrMsg fasthttpCookieTypeString ∨ s = cookieWhitelistErrMsg

/-- The `maxmb` option of one annotated field, when present. -/
def maxmbOf (fm : FieldMeta) : Option String :=
  match fm.tagParam with
  | some tag =>
    if tag = TAG_IGNORE_PARAM then none else tagsGet (parseTags tag) "maxmb"
  | none => none

/-- The running maximum of the parseable `maxmb` options of the direct
fields of one record level, starting from `m`. -/
def levelMaxMB (m : Int) : GoFields → Int
  | .nil => m
  | .cons fm _ rest =>
    match maxmbOf fm with
    | some a =>
      match goParseInt a with
      | .ok n => levelMaxMB (if n > m then n else m) rest
      | .error _ => levelMaxMB m rest
    | none => levelMaxMB m rest

/-! ## Concrete fixtures used by the claim instances -/

/-- An identity naming function, a legal `paramNameFunc` argument of
`ToStruct` and `NewParamsAPI`. -/
def identName : String → String := fun s => s

/-- The model of a plain `string` field type. -/
def stringT : GoType := .atom .kother "string" "string"

/-- The model of the `[]string` field type. -/
def stringSliceT : GoType := .atom .kother "[]string" ""

/-- The model of the `multipart.FileHeader` field type (a struct type;
`Type.String()` is package-qualified, `Type.Name()` is not). -/
def fileT : GoType := .struc "multipart.FileHeader" "FileHeader" .nil

/-- A non-anonymous field carrying only a `param` annotation. -/
def mkFM (n : String) (tag : String) : FieldMeta :=
  { fname := n, anonymous := false, tagParam := some tag,
    tagRegexp := none, tagErr := none }

/-- An anonymous field without annotations, the shape that makes the
compiler flatten an embedded record. -/
def anonFM (n : String) : FieldMeta :=
  { fname := n, anonymous := true, tagParam := none,
    tagRegexp := none, tagErr := none }

/-- Builds a `GoFields` list from a Lean list. -/
def goFields : List (FieldMeta × GoType) → GoFields
  | [] => .nil
  | (fm, ft) :: rest => .cons fm ft (goFields rest)

/-- A record embedding an anonymous record that declares a formData
field, next to a directly declared body field. -/
def c1Embedded : GoType :=
  .struc "apiware.Embed" "Embed" (goFields [(mkFM "F1" "type(formData)", stringT)])

def c1Fields : GoFields :=
  goFields [(anonFM "Embed", c1Embedded), (mkFM "B" "type(body)", stringT)]

/-- A record embedding an anonymous record whose only field carries
`maxmb(64)`; the outer record declares no `maxmb` option. -/
def c7Embedded : GoType :=
  .struc "apiware.EmbedMB" "EmbedMB" (goFields [(mkFM "F1" "type(query),maxmb(64)", stringT)])

def c7Fields : GoFields :=
  goFields [(anonFM "EmbedMB", c7Embedded)]

/-- A record whose single field declares `maxmb(0)`. -/
def c7ZeroFields : GoFields :=
  goFields [(mkFM "A" "type(query),maxmb(0)", stringT)]

/-- A record declaring a formData field and a body field at the same
level. -/
def sameLevelConflictFields : GoFields :=
  goFields [(mkFM "A" "type(formData)", stringT), (mkFM "B" "type(body)", stringT)]

/-- A record declaring a field with a channel outside the accepted
set, a compile error unrelated to conflicts and pairings. -/
def bogusChannelFields : GoFields :=
  goFields [(mkFM "X" "type(bogus)", stringT)]

/-- A record with one optional query field constrained `nonzero`. -/
def c9Fields : GoFields :=
  goFields [(mkFM "Q" "type(query),nonzero", stringT)]

/-- A record declaring a file-shaped field on the query channel. -/
def c6FileFields : GoFields :=
  goFields [(mkFM "Pic" "type(query)", fileT)]

/-- A record declaring one legal path field and one legal query field. -/
def c6LegalFields : GoFields :=
  goFields [(mkFM "Id" "type(path)", stringT), (mkFM "Q" "type(query)", stringT)]

/-- A record with a `[]string` field carrying a `len` constraint, the
shape the ParamsAPI compiler accepts (paramapi.go:206). -/
def c10Fields : GoFields :=
  goFields [(mkFM "P" "type(query),len(1:10)", stringSliceT)]

/-- A field descriptor carrying a custom error message and a malformed
length tuple: the tuple makes `parseTuple` panic inside validation. -/
def c8Field (v : GoValue) : VField :=
  { Name := "a", Tags := parseTags "type(query),len(:)" ++ [(TAG_ERR, "custom")], Value := v }

/-- A coercion function that always panics, standing for a conversion
fault inside `convertAssign`. -/
def caPanic : ConvertAssign := fun _ _ => .error "runtime error: conversion fault"

/-- A coercion function that writes the first source string. -/
def caFirst : ConvertAssign := fun v ss =>
  match ss with
  | [] => .ok (.ok v)
  | s :: _ => .ok (.ok (.vstr s))

/-- A body-decode function that leaves the slot unchanged. -/
def bdfKeep : BodyDecode := fun v _ => .ok (.ok v)

/-- A regular-expression engine stub that accepts everything. -/
def rxAll : RegexpMatch := fun _ _ => .ok true

/-- A per-field validator stub that accepts everything
(for `ParamsAPI.BindFields`, whose `Param.validate` is outside the
sources). -/
def pvAccept : ParamValidate := fun _ _ => .ok none

/-- A request with one query binding and nothing else. -/
def hreqQ (k : String) (vs : List String) : HRequest :=
  { pathParams := [], query := [(k, vs)], formParse := .ok ([], none),
    bodyRead := .ok "", header := [], cookie := fun _ => none }

/-- A request with empty channels. -/
def hreqEmpty : HRequest :=
  { pathParams := [], query := [], formParse := .ok ([], none),
    bodyRead := .ok "", header := [], cookie := fun _ => none }

/-- A `ParamsAPI` request with one form binding and nothing else. -/
def preqQ (k : String) (vs : List String) : PRequest :=
  { parseFormErr := none, form := [(k, vs)], multipartParse := .ok none,
    bodyRead := .ok "", header := [], cookie := fun _ => none }

/-! ## Map and split lemmas -/

theorem tagsGet_cons (k0 v0 : String) (m : TagMap) (k : String) :
    tagsGet ((k0, v0) :: m) k = if k0 = k then some v0 else tagsGet m k := by
  by_cases h : k0 = k
  · simp [tagsGet, List.find?, beq_iff_eq.mpr h, h]
  · simp [tagsGet, List.find?, beq_eq_false_iff_ne.mpr h, h]

theorem tagsGet_tagsSet_self (m : TagMap) (k v : String) :
    tagsGet (tagsSet m k v) k = some v := by
  induction m with
  | nil => simp [tagsSet, tagsGet_cons]
  | cons p rest ih =>
    obtain ⟨k0, v0⟩ := p
    by_cases h : k0 = k
    · simp [tagsSet, h, tagsGet_cons]
    · simp only [tagsSet, if_neg h]
      rw [tagsGet_cons, if_neg h]
      exact ih

theorem tagsGet_tagsSet_ne (m : TagMap) (k v k' : String) (h : k' ≠ k) :
    tagsGet (tagsSet m k v) k' = tagsGet m k' := by
  induction m with
  | nil => simp [tagsSet, tagsGet_cons, Ne.symm h, tagsGet]
  | cons p rest ih =>
    obtain ⟨k0, v0⟩ := p
    by_cases h0 : k0 = k
    · subst h0
      simp [tagsSet, tagsGet_cons, Ne.symm h]
    · simp only [tagsSet, if_neg h0]
      rw [tagsGet_cons, tagsGet_cons]
      by_cases h1 : k0 = k'
      · simp [h1]
      · simp only [if_neg h1]
        exact ih

theorem tagsHas_tagsSet_self (m : TagMap) (k v : String) :
    tagsHas (tagsSet m k v) k = true := by
  simp [tagsHas, tagsGet_tagsSet_self]

theorem tagsHas_tagsSet_ne (m : TagMap) (k v k' : String) (h : k' ≠ k) :
    tagsHas (tagsSet m k v) k' = tagsHas m k' := by
  simp [tagsHas, tagsGet_tagsSet_ne m k v k' h]

/-- Lookups through `mergeExtraTags` are unchanged on keys other than
the regexp and err tags. -/
theorem tagsGet_mergeExtraTags (fm : FieldMeta) (t : TagMap) (k : String)
    (h1 : k ≠ TAG_REGEXP) (h2 : k ≠ TAG_ERR) :
    tagsGet (mergeExtraTags fm t) k = tagsGet t k := by
  unfold mergeExtraTags
  cases fm.tagRegexp <;> cases fm.tagErr <;>
    simp [tagsGet_tagsSet_ne _ _ _ _ h1, tagsGet_tagsSet_ne _ _ _ _ h2]

theorem splitOnChar_of_not_mem (c : Char) (l : List Char) (h : c ∉ l) :
    splitOnChar c l = [l] := by
  induction l with
  | nil => simp [splitOnChar]
  | cons x xs ih =>
    simp only [List.mem_cons, not_or] at h
    simp only [splitOnChar, if_neg (Ne.symm h.1), ih h.2]

theorem splitOnChar_append (c : Char) (l1 l2 : List Char) (h : c ∉ l1) :
    splitOnChar c (l1 ++ c :: l2) = l1 :: splitOnChar c l2 := by
  induction l1 with
  | nil => simp [splitOnChar]
  | cons x xs ih =>
    simp only [List.mem_cons, not_or] at h
    simp only [List.cons_append, splitOnChar, if_neg (Ne.symm h.1), List.append_eq, ih h.2]

theorem splitOnChar_eq_single (c : Char) (l b : List Char)
    (h : splitOnChar c l = [b]) : l = b ∧ c ∉ b := by
  induction l generalizing b with
  | nil =>
    simp only [splitOnChar] at h
    obtain ⟨hb, _⟩ := List.cons.inj h
    simp [← hb]
  | cons x xs ih =>
    simp only [splitOnChar] at h
    by_cases hx : x = c
    · rw [if_pos hx] at h
      obtain ⟨_, hS⟩ := List.cons.inj h
      exact absurd hS (splitOnChar_ne_nil c xs)
    · rw [if_neg hx] at h
      cases hs : splitOnChar c xs with
      | nil => exact absurd hs (splitOnChar_ne_nil c xs)
      | cons h0 t =>
        rw [hs] at h
        obtain ⟨hb, ht⟩ := List.cons.inj h
        obtain ⟨hxs, hmem⟩ := ih h0 (hs.trans (by rw [ht]))
        constructor
        · rw [hxs, hb]
        · rw [← hb]
          intro hc
          rcases List.mem_cons.mp hc with h1 | h1
          · exact hx h1.symm
          · exact hmem h1

theorem splitOnChar_eq_pair (c : Char) (l a b : List Char)
    (h : splitOnChar c l = [a, b]) : l = a ++ c :: b ∧ c ∉ a ∧ c ∉ b := by
  induction l generalizing a with
  | nil =>
    simp only [splitOnChar] at h
    obtain ⟨_, hS⟩ := List.cons.inj h
    cases hS
  | cons x xs ih =>
    simp only [splitOnChar] at h
    by_cases hx : x = c
    · rw [if_pos hx] at h
      obtain ⟨ha, hS⟩ := List.cons.inj h
      obtain ⟨hxs, hmem⟩ := splitOnChar_eq_single c xs b hS
      refine ⟨?_, ?_, hmem⟩
      · rw [← ha, hxs, hx]
        rfl
      · rw [← ha]
        exact List.not_mem_nil c
    · rw [if_neg hx] at h
      cases hs : splitOnChar c xs with
      | nil => exact absurd hs (splitOnChar_ne_nil c xs)
      | cons h0 t =>
        rw [hs] at h
        obtain ⟨ha, ht⟩ := List.cons.inj h
        obtain ⟨hxs, hm1, hm2⟩ := ih h0 (hs.trans (by rw [ht]))
        refine ⟨?_, ?_, hm2⟩
        · rw [← ha, hxs]
          rfl
        · rw [← ha]
          intro hc
          rcases List.mem_cons.mp hc with h1 | h1
          · exact hx h1.symm
          · exact hm1 h1

/-! ## Claim C4: the tag grammar -/

/-- Claim C4: `parseTags` splits the annotation on commas; an option
with exactly one parenthesis character and more than one character
after it maps to the entry from the text before the parenthesis to the
text between the parenthesis and the final character (the trailing
closing parenthesis of a well-formed `key(value)` option); every other
option, including empty parens, becomes a bare key equal to the full
option text with an empty value; parsing `a,b(c)` in either option
order yields exactly the map with `a` bound to the empty string and `b`
bound to `c`. -/
theorem parseTags_option_map :
    (∀ (v : String) (k w : List Char), v.data = k ++ '(' :: w → '(' ∉ k → '(' ∉ w →
        1 < w.length → ∀ m : TagMap,
        parseTagOption m v = tagsSet m (String.mk k) (String.mk w.dropLast))
    ∧ (∀ v : String,
        (¬ ∃ k w : List Char, v.data = k ++ '(' :: w ∧ '(' ∉ k ∧ '(' ∉ w ∧ 1 < w.length) →
        ∀ m : TagMap, parseTagOption m v = tagsSet m v "")
    ∧ (∀ k : String, tagsGet (parseTags "a,b(c)") k = tagsGet (parseTags "b(c),a") k)
    ∧ tagsGet (parseTags "a,b(c)") "a" = some ""
    ∧ tagsGet (parseTags "a,b(c)") "b" = some "c"
    ∧ (∀ k : String, k ≠ "a" → k ≠ "b" → tagsGet (parseTags "a,b(c)") k = none) := by
  have e1 : parseTags "a,b(c)" = [("a", ""), ("b", "c")] := by decide
  have e2 : parseTags "b(c),a" = [("b", "c"), ("a", "")] := by decide
  refine ⟨?_, ?_, ?_, by decide, by decide, ?_⟩
  · intro v k w hv hk hw hlen m
    unfold parseTagOption goSplit
    rw [hv, splitOnChar_append _ _ _ hk, splitOnChar_of_not_mem _ _ hw]
    have hgl : goLen (String.mk w) > 1 := hlen
    simp only [List.map, if_pos hgl, strDropLast]
  · intro v hne m
    unfold parseTagOption goSplit
    cases hsp : splitOnChar '(' v.data with
    | nil => exact absurd hsp (splitOnChar_ne_nil _ _)
    | cons a t =>
      cases t with
      | nil => simp only [List.map]
      | cons b t2 =>
        cases t2 with
        | nil =>
          simp only [List.map]
          have hglb : ¬ goLen (String.mk b) > 1 := by
            intro hgt
            apply hne
            obtain ⟨hv, ha, hb⟩ := splitOnChar_eq_pair '(' v.data a b hsp
            exact ⟨a, b, hv, ha, hb, hgt⟩
          simp only [if_neg hglb]
        | cons c t3 => simp only [List.map]
  · intro k
    by_cases ha : k = "a"
    · subst ha; decide
    · by_cases hb : k = "b"
      · subst hb; decide
      · rw [e1, e2, tagsGet_cons, tagsGet_cons, tagsGet_cons, tagsGet_cons]
        simp [Ne.symm ha, Ne.symm hb]
  · intro k h1 h2
    rw [e1, tagsGet_cons, tagsGet_cons]
    simp [Ne.symm h1, Ne.symm h2, tagsGet]

/-- Witness for C4: the good-form branch applied to the concrete
option `b(c)`. -/
theorem parseTags_option_map_witness :
    ("b(c)" : String).data = ['b'] ++ '(' :: ['c', ')'] ∧
    parseTagOption [] "b(c)" = tagsSet [] "b" "c" := by
  refine ⟨by decide, ?_⟩
  have h := parseTags_option_map.1 "b(c)" ['b'] ['c', ')'] (by decide) (by decide)
    (by decide) (by decide) []
  simpa using h

/-! ## Schema compiler lemmas -/

/-- Lookups through the channel switch change only the `required`
binding: the output tag map is the input, or the input with the
implicit required option of the path channel. -/
theorem channelSwitch_ok (msg tname fname pt fts : String) (tags : TagMap)
    (hFD hB h1 h2 : Bool) (tags0 : TagMap)
    (h : channelSwitch msg tname fname pt fts tags hFD hB = .ok (h1, h2, tags0)) :
    (pt ≠ "path" ∧ tags0 = tags) ∨
    (pt = "path" ∧ tags0 = tagsSet tags "required" "required") := by
  unfold channelSwitch at h
  split_ifs at h with hfd hb hbody hfd2 hb2 hpath hcookie hwl hpt
  · simp only [Except.ok.injEq, Prod.mk.injEq] at h
    exact .inl ⟨by rw [hfd]; decide, h.2.2.symm⟩
  · simp only [Except.ok.injEq, Prod.mk.injEq] at h
    exact .inl ⟨by rw [hbody]; decide, h.2.2.symm⟩
  · simp only [Except.ok.injEq, Prod.mk.injEq] at h
    exact .inr ⟨hpath, h.2.2.symm⟩
  · simp only [Except.ok.injEq, Prod.mk.injEq] at h
    exact .inl ⟨hpath, h.2.2.symm⟩
  · simp only [Except.ok.injEq, Prod.mk.injEq] at h
    exact .inl ⟨hpath, h.2.2.symm⟩


/-- Unfolding equations for the struct-engine field walk. -/
theorem addFieldsAux_nil (pnf : String → String) (tname : String) (i : Nat)
    (hFD hB : Bool) (m : Int) (acc : List StructField) :
    addFieldsAux pnf tname .nil i hFD hB m acc = .ok (acc, hFD, hB, m) := by
  rw [addFieldsAux.eq_def]

theorem addFieldsAux_cons_anon (pnf : String → String)
    (tname ststr tn1 : String) (fm : FieldMeta)
    (subFields rest : GoFields) (i : Nat) (hFD hB : Bool)
    (m : Int) (acc : List StructField)
    (hanon : fm.anonymous = true) (htag : fm.tagParam = none) :
    addFieldsAux pnf tname (.cons fm (.struc ststr tn1 subFields) rest) i hFD hB m acc =
      match addFieldsAux pnf ststr subFields 0 false false 0 acc with
      | .error e => .error e
      | .ok (acc2, _, _, _) => addFieldsAux pnf tname rest (i + 1) hFD hB m acc2 := by
  rw [addFieldsAux.eq_def]
  dsimp only
  rw [htag, hanon]

theorem addFieldsAux_cons_skip (pnf : String → String) (tname : String)
    (fm : FieldMeta) (ft : GoType) (rest : GoFields) (i : Nat)
    (hFD hB : Bool) (m : Int) (acc : List StructField)
    (htag : fm.tagParam = none)
    (hexc : ∀ ststr tn1 subFields, fm.anonymous = true → ft = GoType.struc ststr tn1 subFields → False) :
    addFieldsAux pnf tname (.cons fm ft rest) i hFD hB m acc =
      addFieldsAux pnf tname rest (i + 1) hFD hB m acc := by
  rw [addFieldsAux.eq_def]
  dsimp only
  rw [htag]
  cases hA : fm.anonymous with
  | false => cases ft <;> rfl
  | true =>
    cases ft with
    | atom k ts tn => rfl
    | struc ts tn sub => exact absurd rfl (hexc ts tn sub hA)

theorem addFieldsAux_cons_ignore (pnf : String → String) (tname : String)
    (fm : FieldMeta) (ft : GoType) (rest : GoFields) (i : Nat)
    (hFD hB : Bool) (m : Int) (acc : List StructField)
    (htag : fm.tagParam = some TAG_IGNORE_PARAM) :
    addFieldsAux pnf tname (.cons fm ft rest) i hFD hB m acc =
      addFieldsAux pnf tname rest (i + 1) hFD hB m acc := by
  rw [addFieldsAux.eq_def]
  dsimp only
  rw [htag]
  cases hA : fm.anonymous <;> cases ft <;> simp [TAG_IGNORE_PARAM]

theorem addFieldsAux_cons_tagged (pnf : String → String) (tname : String)
    (fm : FieldMeta) (ft : GoType) (rest : GoFields) (i : Nat)
    (hFD hB : Bool) (m : Int) (acc : List StructField) (tag : String)
    (htag : fm.tagParam = some tag) (hig : tag ≠ TAG_IGNORE_PARAM) :
    addFieldsAux pnf tname (.cons fm ft rest) i hFD hB m acc =
      match addOneField pnf tname i fm ft tag hFD hB m with
      | .error e => .error e
      | .ok (hasFormData2, hasBody2, maxMB2, fd) =>
        addFieldsAux pnf tname rest (i + 1) hasFormData2 hasBody2 maxMB2 (acc ++ [fd]) := by
  rw [addFieldsAux.eq_def]
  dsimp only
  rw [htag]
  cases hA : fm.anonymous <;> cases ft <;> simp [hig]

/-- A descriptor invariant transported along the struct-engine field
walk: if every descriptor built by `addOneField` satisfies `P` and the
accumulator satisfies it, the output field list satisfies it. -/
theorem addFieldsAux_invariant (pnf : String → String) (P : StructField → Prop)
    (hstep : ∀ tname i fm ft tag hFD hB m h1 h2 m2 fd,
      addOneField pnf tname i fm ft tag hFD hB m = .ok (h1, h2, m2, fd) → P fd) :
    ∀ (tname : String) (flds : GoFields) (i : Nat)
      (hFD hB : Bool) (m : Int) (acc : List StructField)
      (out : List StructField × Bool × Bool × Int),
      addFieldsAux pnf tname flds i hFD hB m acc = .ok out →
      (∀ f ∈ acc, P f) → ∀ f ∈ out.1, P f := by
  intro tname flds i hFD hB m acc
  induction tname, flds, i, hFD, hB, m, acc using addFieldsAux.induct pnf with
  | case1 tname i hFD hB m acc =>
    intro out h hacc
    rw [addFieldsAux_nil] at h
    obtain rfl := Except.ok.inj h
    exact hacc
  | case2 tname fm rest i hFD hB m acc ststr tn1 sub hanon htag e hin ih =>
    intro out h hacc
    rw [addFieldsAux_cons_anon pnf tname ststr tn1 fm sub rest i hFD hB m acc hanon htag,
      hin] at h
    exact Except.noConfusion h
  | case3 tname fm rest i hFD hB m acc ststr tn1 sub hanon htag acc2 f1 f2 mm hin ih1 ih2 =>
    intro out h hacc
    rw [addFieldsAux_cons_anon pnf tname ststr tn1 fm sub rest i hFD hB m acc hanon htag,
      hin] at h
    exact ih2 out h (ih1 (acc2, f1, f2, mm) hin hacc)
  | case4 tname fm ft rest i hFD hB m acc htag hexc ih =>
    intro out h hacc
    rw [addFieldsAux_cons_skip pnf tname fm ft rest i hFD hB m acc htag hexc] at h
    exact ih out h hacc
  | case5 tname fm ft rest i hFD hB m acc htag ih =>
    intro out h hacc
    rw [addFieldsAux_cons_ignore pnf tname fm ft rest i hFD hB m acc htag] at h
    exact ih out h hacc
  | case6 tname fm ft rest i hFD hB m acc tag htag hig e hof =>
    intro out h hacc
    rw [addFieldsAux_cons_tagged pnf tname fm ft rest i hFD hB m acc tag htag hig, hof] at h
    exact Except.noConfusion h
  | case7 tname fm ft rest i hFD hB m acc tag htag hig f1 f2 mm fd hof ih =>
    intro out h hacc
    rw [addFieldsAux_cons_tagged pnf tname fm ft rest i hFD hB m acc tag htag hig, hof] at h
    refine ih out h ?_
    intro f hf
    rcases List.mem_append.mp hf with hf | hf
    · exact hacc f hf
    · rw [List.mem_singleton.mp hf]
      exact hstep _ _ _ _ _ _ _ _ _ _ _ _ hof

/-! ## Claim C3: numeric range validation -/

theorem goParseFloatParts_nil (a : String) (h : a.data = []) :
    goParseFloatParts a = none := by
  unfold goParseFloatParts
  rw [h]
  rfl

theorem goParseFloat_pos (a : String) (q : ℚ) (h : goParseFloat a = .ok q) :
    0 < goLen a := by
  cases hp : goParseFloatParts a with
  | none =>
    rw [goParseFloat, hp] at h
    exact absurd h (by simp)
  | some p =>
    by_contra hlen
    push_neg at hlen
    have hd : a.data = [] := List.eq_nil_of_length_eq_zero (Nat.le_zero.mp hlen)
    rw [goParseFloatParts_nil a hd] at hp
    cases hp

/-- Two validation failures with the same field but different kinds
render differently. -/
theorem NewValidationError_inj (k1 k2 fl : String)
    (h : NewValidationError k1 fl = NewValidationError k2 fl) : k1 = k2 := by
  have hd := congrArg String.data h
  simp only [NewValidationError, String.data_append, List.append_assoc] at hd
  exact String.ext (List.append_cancel_left (List.append_cancel_left hd))

/-- With a fully parsed tuple, `validateRange` reduces to the
epsilon-tolerant two-sided comparison. -/
theorem validateRange_eq (f : ℚ) (tuple a b field : String) (mn mx : ℚ)
    (ht : parseTuple tuple = .ok (a, b))
    (ha : goParseFloat a = .ok mn) (hb : goParseFloat b = .ok mx) :
    validateRange f tuple field = .ok (
      if accuracy < mn - f then some (NewValidationError ValidationErrorValueTooSmall field)
      else if accuracy < f - mx then some (NewValidationError ValidationErrorValueTooBig field)
      else none) := by
  have hla : 0 < goLen a := goParseFloat_pos a mn ha
  have hlb : 0 < goLen b := goParseFloat_pos b mx hb
  have hacc : (0 : ℚ) < accuracy := by norm_num [accuracy]
  have hmin : (Min.min f mn = f ∧ |f - mn| > accuracy) ↔ accuracy < mn - f := by
    constructor
    · rintro ⟨h1, h2⟩
      have hle : f ≤ mn := min_eq_left_iff.mp h1
      rwa [abs_of_nonpos (by linarith), neg_sub] at h2
    · intro h
      have hle : f ≤ mn := by linarith
      refine ⟨min_eq_left_iff.mpr hle, ?_⟩
      rw [abs_of_nonpos (by linarith), neg_sub]
      linarith
  have hmax : (Max.max f mx = f ∧ |f - mx| > accuracy) ↔ accuracy < f - mx := by
    constructor
    · rintro ⟨h1, h2⟩
      have hle : mx ≤ f := max_eq_left_iff.mp h1
      rwa [abs_of_nonneg (by linarith)] at h2
    · intro h
      have hle : mx ≤ f := by linarith
      refine ⟨max_eq_left_iff.mpr hle, ?_⟩
      rw [abs_of_nonneg (by linarith)]
      linarith
  simp only [validateRange, rangeUpper, ht, ha, hb, if_pos hla, if_pos hlb]
  by_cases hc1 : accuracy < mn - f
  · rw [if_pos (hmin.mpr hc1), if_pos hc1]
  · rw [if_neg (fun hh => hc1 (hmin.mp hh)), if_neg hc1]
    by_cases hc2 : accuracy < f - mx
    · rw [if_pos (hmax.mpr hc2), if_pos hc2]
    · rw [if_neg (fun hh => hc2 (hmax.mp hh)), if_neg hc2]

/-- Claim C3: for a range constraint `min:max` with both bounds parsed
as floating literals, validation fails too-small exactly when the value
is below the minimum by more than the fixed epsilon `1e-7`, fails
too-big exactly when it exceeds the maximum by more than the epsilon,
and succeeds exactly otherwise; against `10:20` the value `9.999999`
fails too-small, `21` fails too-big, and both `10` and `20` succeed. -/
theorem validateRange_spec :
    (∀ (tuple a b field : String) (mn mx f : ℚ),
      parseTuple tuple = .ok (a, b) → goParseFloat a = .ok mn →
      goParseFloat b = .ok mx → mn ≤ mx →
      ((validateRange f tuple field =
          .ok (some (NewValidationError ValidationErrorValueTooSmall field)) ↔
            accuracy < mn - f)
        ∧ (validateRange f tuple field =
          .ok (some (NewValidationError ValidationErrorValueTooBig field)) ↔
            accuracy < f - mx)
        ∧ (validateRange f tuple field = .ok none ↔
            (mn - f ≤ accuracy ∧ f - mx ≤ accuracy))))
    ∧ validateRange ((9999999 : ℚ)/1000000) "10:20" "b" =
        .ok (some (NewValidationError ValidationErrorValueTooSmall "b"))
    ∧ validateRange (21 : ℚ) "10:20" "b" =
        .ok (some (NewValidationError ValidationErrorValueTooBig "b"))
    ∧ validateRange (10 : ℚ) "10:20" "b" = .ok none
    ∧ validateRange (20 : ℚ) "10:20" "b" = .ok none := by
  have ht : parseTuple "10:20" = .ok ("10", "20") := by decide
  have h10 : goParseFloat "10" = .ok 10 := by
    rw [goParseFloat, (by decide : goParseFloatParts "10" = some (false, 10, 0, 0, 0))]
    norm_num
  have h20 : goParseFloat "20" = .ok 20 := by
    rw [goParseFloat, (by decide : goParseFloatParts "20" = some (false, 20, 0, 0, 0))]
    norm_num
  have hkinds : ValidationErrorValueTooSmall ≠ ValidationErrorValueTooBig := by decide
  constructor
  · intro tuple a b field mn mx f ht0 ha hb hmnx
    rw [validateRange_eq f tuple a b field mn mx ht0 ha hb]
    refine ⟨?_, ?_, ?_⟩
    · constructor
      · intro h
        by_cases hc1 : accuracy < mn - f
        · exact hc1
        · rw [if_neg hc1] at h
          by_cases hc2 : accuracy < f - mx
          · rw [if_pos hc2] at h
            injection h with h
            injection h with h
            exact absurd (NewValidationError_inj _ _ _ h.symm) hkinds
          · rw [if_neg hc2] at h
            injection h with h
            cases h
      · intro h
        rw [if_pos h]
    · constructor
      · intro h
        by_cases hc1 : accuracy < mn - f
        · rw [if_pos hc1] at h
          injection h with h
          injection h with h
          exact absurd (NewValidationError_inj _ _ _ h) hkinds
        · rw [if_neg hc1] at h
          by_cases hc2 : accuracy < f - mx
          · exact hc2
          · rw [if_neg hc2] at h
            injection h with h
            cases h
      · intro h
        have hacc : (0 : ℚ) < accuracy := by norm_num [accuracy]
        rw [if_neg (by intro hc; linarith), if_pos h]
    · constructor
      · intro h
        by_cases hc1 : accuracy < mn - f
        · rw [if_pos hc1] at h
          injection h with h
          cases h
        · rw [if_neg hc1] at h
          by_cases hc2 : accuracy < f - mx
          · rw [if_pos hc2] at h
            injection h with h
            cases h
          · exact ⟨le_of_not_lt hc1, le_of_not_lt hc2⟩
      · rintro ⟨h1, h2⟩
        rw [if_neg (not_lt_of_le h1), if_neg (not_lt_of_le h2)]
  refine ⟨?_, ?_, ?_, ?_⟩
  · rw [validateRange_eq _ "10:20" "10" "20" "b" 10 20 ht h10 h20]
    norm_num [accuracy]
  · rw [validateRange_eq _ "10:20" "10" "20" "b" 10 20 ht h10 h20]
    norm_num [accuracy]
  · rw [validateRange_eq _ "10:20" "10" "20" "b" 10 20 ht h10 h20]
    norm_num [accuracy]
  · rw [validateRange_eq _ "10:20" "10" "20" "b" 10 20 ht h10 h20]
    norm_num [accuracy]

/-- Witness for C3: the general range characterization applied at the
tuple `10:20` and the value `21`. -/
theorem validateRange_spec_witness :
    validateRange (21 : ℚ) "10:20" "b" =
      .ok (some (NewValidationError ValidationErrorValueTooBig "b")) := by
  have h10 : goParseFloat "10" = .ok 10 := by
    rw [goParseFloat, (by decide : goParseFloatParts "10" = some (false, 10, 0, 0, 0))]
    norm_num
  have h20 : goParseFloat "20" = .ok 20 := by
    rw [goParseFloat, (by decide : goParseFloatParts "20" = some (false, 20, 0, 0, 0))]
    norm_num
  exact ((validateRange_spec.1 "10:20" "10" "20" "b" 10 20 21 (by decide) h10 h20
    (by norm_num)).2.1).mpr (by norm_num [accuracy])

theorem addOneField_ok (pnf : String → String) (tname : String) (i : Nat)
    (fm : FieldMeta) (ft : GoType) (tag : String) (hFD hB : Bool) (m : Int)
    (h1 h2 : Bool) (m2 : Int) (fd : StructField)
    (h : addOneField pnf tname i fm ft tag hFD hB m = .ok (h1, h2, m2, fd)) :
    ∃ tags0,
      channelSwitch invalidTypeErrMsg tname fm.fname (tagsGetD (parseTags tag) "type")
        ft.str (parseTags tag) hFD hB = .ok (h1, h2, tags0) ∧
      maxmbStep tname fm.fname tags0 m = .ok m2 ∧
      fd = mkStructField pnf i fm ft (mergeExtraTags fm tags0) := by
  unfold addOneField at h
  dsimp only at h
  split at h
  · exact Except.noConfusion h
  · split at h
    · exact Except.noConfusion h
    · split at h
      · exact Except.noConfusion h
      · split at h
        · exact Except.noConfusion h
        · rename_i hFD2 hB2 tags0 hcs
          split at h
          · exact Except.noConfusion h
          · rename_i mm hms
            simp only [Except.ok.injEq, Prod.mk.injEq] at h
            obtain ⟨e1, e2, e3, e4⟩ := h
            refine ⟨tags0, ?_, ?_, e4.symm⟩
            · rw [e1, e2] at hcs
              exact hcs
            · rw [e3] at hms
              exact hms
theorem addParamsAux_nil (pnf : String → String) (tname : String)
    (pip : List Nat) (i : Nat) (hFD hB : Bool) (m : Int) (acc : List Param) :
    addParamsAux pnf tname pip .nil i hFD hB m acc = .ok (acc, hFD, hB, m) := by
  rw [addParamsAux.eq_def]

theorem addParamsAux_cons_anon (pnf : String → String)
    (tname ststr tn1 : String) (pip : List Nat) (fm : FieldMeta)
    (subFields rest : GoFields) (i : Nat) (hFD hB : Bool)
    (m : Int) (acc : List Param)
    (hanon : fm.anonymous = true) (htag : fm.tagParam = none) :
    addParamsAux pnf tname pip (.cons fm (.struc ststr tn1 subFields) rest) i hFD hB m acc =
      match addParamsAux pnf ststr (pip ++ [i]) subFields 0 false false 0 acc with
      | .error e => .error e
      | .ok (acc2, _, _, _) => addParamsAux pnf tname pip rest (i + 1) hFD hB m acc2 := by
  rw [addParamsAux.eq_def]
  dsimp only
  rw [htag, hanon]

theorem addParamsAux_cons_skip (pnf : String → String) (tname : String)
    (pip : List Nat) (fm : FieldMeta) (ft : GoType)
    (rest : GoFields) (i : Nat)
    (hFD hB : Bool) (m : Int) (acc : List Param)
    (htag : fm.tagParam = none)
    (hexc : ∀ ststr tn1 subFields, fm.anonymous = true → ft = GoType.struc ststr tn1 subFields → False) :
    addParamsAux pnf tname pip (.cons fm ft rest) i hFD hB m acc =
      addParamsAux pnf tname pip rest (i + 1) hFD hB m acc := by
  rw [addParamsAux.eq_def]
  dsimp only
  rw [htag]
  cases hA : fm.anonymous with
  | false => cases ft <;> rfl
  | true =>
    cases ft with
    | atom k ts tn => rfl
    | struc ts tn sub => exact absurd rfl (hexc ts tn sub hA)

theorem addParamsAux_cons_ignore (pnf : String → String) (tname : String)
    (pip : List Nat) (fm : FieldMeta) (ft : GoType)
    (rest : GoFields) (i : Nat)
    (hFD hB : Bool) (m : Int) (acc : List Param)
    (htag : fm.tagParam = some TAG_IGNORE_PARAM) :
    addParamsAux pnf tname pip (.cons fm ft rest) i hFD hB m acc =
      addParamsAux pnf tname pip rest (i + 1) hFD hB m acc := by
  rw [addParamsAux.eq_def]
  dsimp only
  rw [htag]
  cases hA : fm.anonymous <;> cases ft <;> simp [TAG_IGNORE_PARAM]

theorem addParamsAux_cons_tagged (pnf : String → String) (tname : String)
    (pip : List Nat) (fm : FieldMeta) (ft : GoType)
    (rest : GoFields) (i : Nat)
    (hFD hB : Bool) (m : Int) (acc : List Param) (tag : String)
    (htag : fm.tagParam = some tag) (hig : tag ≠ TAG_IGNORE_PARAM) :
    addParamsAux pnf tname pip (.cons fm ft rest) i hFD hB m acc =
      match addOneParam pnf tname (pip ++ [i]) fm ft tag hFD hB m with
      | .error e => .error e
      | .ok (hasFormData2, hasBody2, maxMB2, fd) =>
        addParamsAux pnf tname pip rest (i + 1) hasFormData2 hasBody2 maxMB2 (acc ++ [fd]) := by
  rw [addParamsAux.eq_def]
  dsimp only
  rw [htag]
  cases hA : fm.anonymous <;> cases ft <;> simp [hig]

theorem addParamsAux_invariant (pnf : String → String) (P : Param → Prop)
    (hstep : ∀ tname pip fm ft tag hFD hB m h1 h2 m2 fd,
      addOneParam pnf tname pip fm ft tag hFD hB m = .ok (h1, h2, m2, fd) → P fd) :
    ∀ (tname : String) (pip : List Nat) (flds : GoFields) (i : Nat)
      (hFD hB : Bool) (m : Int) (acc : List Param)
      (out : List Param × Bool × Bool × Int),
      addParamsAux pnf tname pip flds i hFD hB m acc = .ok out →
      (∀ f ∈ acc, P f) → ∀ f ∈ out.1, P f := by
  intro tname pip flds i hFD hB m acc
  induction tname, pip, flds, i, hFD, hB, m, acc using addParamsAux.induct pnf with
  | case1 tname pip i hFD hB m acc =>
    intro out h hacc
    rw [addParamsAux_nil] at h
    obtain rfl := Except.ok.inj h
    exact hacc
  | case2 tname pip fm rest i hFD hB m acc ststr tn1 sub hanon htag e hin ih =>
    intro out h hacc
    rw [addParamsAux_cons_anon pnf tname ststr tn1 pip fm sub rest i hFD hB m acc hanon htag,
      hin] at h
    exact Except.noConfusion h
  | case3 tname pip fm rest i hFD hB m acc ststr tn1 sub hanon htag acc2 f1 f2 mm hin ih1 ih2 =>
    intro out h hacc
    rw [addParamsAux_cons_anon pnf tname ststr tn1 pip fm sub rest i hFD hB m acc hanon htag,
      hin] at h
    exact ih2 out h (ih1 (acc2, f1, f2, mm) hin hacc)
  | case4 tname pip fm ft rest i hFD hB m acc htag hexc ih =>
    intro out h hacc
    rw [addParamsAux_cons_skip pnf tname pip fm ft rest i hFD hB m acc htag hexc] at h
    exact ih out h hacc
  | case5 tname pip fm ft rest i hFD hB m acc htag ih =>
    intro out h hacc
    rw [addParamsAux_cons_ignore pnf tname pip fm ft rest i hFD hB m acc htag] at h
    exact ih out h hacc
  | case6 tname pip fm ft rest i hFD hB m acc tag htag hig e hof =>
    intro out h hacc
    rw [addParamsAux_cons_tagged pnf tname pip fm ft rest i hFD hB m acc tag htag hig, hof] at h
    exact Except.noConfusion h
  | case7 tname pip fm ft rest i hFD hB m acc tag htag hig f1 f2 mm fd hof ih =>
    intro out h hacc
    rw [addParamsAux_cons_tagged pnf tname pip fm ft rest i hFD hB m acc tag htag hig, hof] at h
    refine ih out h ?_
    intro f hf
    rcases List.mem_append.mp hf with hf | hf
    · exact hacc f hf
    · rw [List.mem_singleton.mp hf]
      exact hstep _ _ _ _ _ _ _ _ _ _ _ _ hof
theorem addOneParam_ok (pnf : String → String) (tname : String) (pip : List Nat)
    (fm : FieldMeta) (ft : GoType) (tag : String) (hFD hB : Bool) (m : Int)
    (h1 h2 : Bool) (m2 : Int) (fd : Param)
    (h : addOneParam pnf tname pip fm ft tag hFD hB m = .ok (h1, h2, m2, fd)) :
    ∃ tags0 tags1,
      channelSwitch invalidTypeErrMsgP tname fm.fname (tagsGetD (parseTags tag) "type")
        ft.str (parseTags tag) hFD hB = .ok (h1, h2, tags0) ∧
      (tags1 = tags0 ∨ ∃ r, tags1 = tagsSet tags0 TAG_REGEXP r) ∧
      (fd.tags = tags1 ∨ ∃ e, fd.tags = tagsSet tags1 TAG_ERR e) ∧
      fd.isRequired = tagsHas fd.tags "required" := by
  unfold addOneParam at h
  dsimp only at h
  split at h
  · exact Except.noConfusion h
  · split at h
    · exact Except.noConfusion h
    · split at h
      · exact Except.noConfusion h
      · split at h
        · exact Except.noConfusion h
        · rename_i hFD2 hB2 tags0 hcs
          split at h
          · exact Except.noConfusion h
          · split at h
            · exact Except.noConfusion h
            · split at h
              · exact Except.noConfusion h
              · rename_i tags1 hgate
                split at h
                · exact Except.noConfusion h
                · rename_i mm hms
                  simp only [Except.ok.injEq, Prod.mk.injEq] at h
                  obtain ⟨e1, e2, e3, e4⟩ := h
                  refine ⟨tags0, tags1, ?_, ?_, ?_, ?_⟩
                  · rw [e1, e2] at hcs
                    exact hcs
                  · cases hr : fm.tagRegexp with
                    | none =>
                      rw [hr] at hgate
                      exact .inl (Except.ok.inj hgate).symm
                    | some r =>
                      rw [hr] at hgate
                      split_ifs at hgate
                      exact .inr ⟨r, (Except.ok.inj hgate).symm⟩
                  · rw [← e4]
                    cases he : fm.tagErr with
                    | none => exact .inl rfl
                    | some e => exact .inr ⟨e, rfl⟩
                  · rw [← e4]

/-- The path channel forces the required flag on the descriptor built
by `addOneField`. -/
theorem addOneField_path_required (pnf : String → String) (tname : String)
    (i : Nat) (fm : FieldMeta) (ft : GoType) (tag : String) (hFD hB : Bool)
    (m : Int) (h1 h2 : Bool) (m2 : Int) (fd : StructField)
    (h : addOneField pnf tname i fm ft tag hFD hB m = .ok (h1, h2, m2, fd))
    (hty : tagsGetD fd.Tags "type" = "path") : fd.isRequired = true := by
  obtain ⟨tags0, hcs, hms, hfd⟩ := addOneField_ok pnf tname i fm ft tag hFD hB m h1 h2 m2 fd h
  rcases channelSwitch_ok _ _ _ _ _ _ _ _ _ _ _ hcs with ⟨hne, rfl⟩ | ⟨hp, htags⟩
  · exfalso
    apply hne
    rw [hfd] at hty
    unfold tagsGetD at hty ⊢
    rw [show (mkStructField pnf i fm ft (mergeExtraTags fm (parseTags tag))).Tags =
          mergeExtraTags fm (parseTags tag) from rfl,
      tagsGet_mergeExtraTags fm _ "type" (by decide) (by decide)] at hty
    exact hty
  · rw [hfd]
    show tagsHas (mergeExtraTags fm tags0) "required" = true
    unfold tagsHas
    rw [tagsGet_mergeExtraTags fm _ "required" (by decide) (by decide), htags,
      tagsGet_tagsSet_self]
    rfl

/-- Lookups unchanged through the optional regexp and err tag merges. -/
theorem tagsGet_chain (tags0 tags1 tags2 : TagMap) (k : String)
    (hg : tags1 = tags0 ∨ ∃ r, tags1 = tagsSet tags0 TAG_REGEXP r)
    (he : tags2 = tags1 ∨ ∃ e, tags2 = tagsSet tags1 TAG_ERR e)
    (h1 : k ≠ TAG_REGEXP) (h2 : k ≠ TAG_ERR) :
    tagsGet tags2 k = tagsGet tags0 k := by
  rcases he with rfl | ⟨e, rfl⟩ <;> rcases hg with rfl | ⟨r, rfl⟩ <;>
    simp [tagsGet_tagsSet_ne _ _ _ _ h1, tagsGet_tagsSet_ne _ _ _ _ h2]

/-- The path channel forces the required flag on the descriptor built
by `addOneParam`. -/
theorem addOneParam_path_required (pnf : String → String) (tname : String)
    (pip : List Nat) (fm : FieldMeta) (ft : GoType) (tag : String)
    (hFD hB : Bool) (m : Int) (h1 h2 : Bool) (m2 : Int) (fd : Param)
    (h : addOneParam pnf tname pip fm ft tag hFD hB m = .ok (h1, h2, m2, fd))
    (hty : tagsGetD fd.tags "type" = "path") : fd.isRequired = true := by
  obtain ⟨tags0, tags1, hcs, hg, he, hreq⟩ :=
    addOneParam_ok pnf tname pip fm ft tag hFD hB m h1 h2 m2 fd h
  rcases channelSwitch_ok _ _ _ _ _ _ _ _ _ _ _ hcs with ⟨hne, rfl⟩ | ⟨hp, h0⟩
  · exfalso
    apply hne
    unfold tagsGetD at hty ⊢
    rw [tagsGet_chain _ _ _ "type" hg he (by decide) (by decide)] at hty
    exact hty
  · rw [hreq]
    unfold tagsHas
    rw [tagsGet_chain _ _ _ "required" hg he (by decide) (by decide), h0,
      tagsGet_tagsSet_self]
    rfl

/-! ## Claim C5: path channel forces required -/

/-- Claim C5: after every successful compilation — through the struct
engine or the ParamsAPI engine — every field descriptor whose channel
option is `path` carries `required = true`, with or without an explicit
required option in the annotation. -/
theorem path_implies_required :
    (∀ (pnf : String → String) (tstr : String) (flds : GoFields)
       (fs : List StructField) (mm : Int),
       addFields pnf tstr flds = .ok (fs, mm) →
       ∀ f ∈ fs, tagsGetD f.Tags "type" = "path" → f.isRequired = true)
    ∧ (∀ (pnf : String → String) (tstr : String) (flds : GoFields)
       (ps : List Param) (mm : Int),
       paramsAddFields pnf tstr flds = .ok (ps, mm) →
       ∀ p ∈ ps, tagsGetD p.tags "type" = "path" → p.isRequired = true) := by
  constructor
  · intro pnf tstr flds fs mm h f hf
    unfold addFields at h
    cases haux : addFieldsAux pnf tstr flds 0 false false 0 [] with
    | error e =>
      rw [haux] at h
      exact Except.noConfusion h
    | ok out =>
      obtain ⟨acc, b1, b2, mx⟩ := out
      rw [haux] at h
      simp only [Except.ok.injEq, Prod.mk.injEq] at h
      have hinv := addFieldsAux_invariant pnf
        (fun fd => tagsGetD fd.Tags "type" = "path" → fd.isRequired = true)
        (fun tname i fm ft tag hFD hB m h1 h2 m2 fd hok =>
          addOneField_path_required pnf tname i fm ft tag hFD hB m h1 h2 m2 fd hok)
        tstr flds 0 false false 0 [] (acc, b1, b2, mx) haux
        (by intro f hf; cases hf)
      rw [← h.1] at hf
      exact hinv f hf
  · intro pnf tstr flds ps mm h p hp
    unfold paramsAddFields at h
    cases haux : addParamsAux pnf tstr [] flds 0 false false 0 [] with
    | error e =>
      rw [haux] at h
      exact Except.noConfusion h
    | ok out =>
      obtain ⟨acc, b1, b2, mx⟩ := out
      rw [haux] at h
      simp only [Except.ok.injEq, Prod.mk.injEq] at h
      have hinv := addParamsAux_invariant pnf
        (fun fd => tagsGetD fd.tags "type" = "path" → fd.isRequired = true)
        (fun tname pip fm ft tag hFD hB m h1 h2 m2 fd hok =>
          addOneParam_path_required pnf tname pip fm ft tag hFD hB m h1 h2 m2 fd hok)
        tstr [] flds 0 false false 0 [] (acc, b1, b2, mx) haux
        (by intro f hf; cases hf)
      rw [← h.1] at hp
      exact hinv p hp

/-- Witness for C5: compiling a record with a path field through the
struct engine marks that field required. -/
theorem path_implies_required_witness :
    (StructField.mk 0 "Id" true false [("type", "path"), ("required", "required")]
      "string" "string").isRequired = true :=
  path_implies_required.1 identName "apiware.Legal" c6LegalFields
    [StructField.mk 0 "Id" true false [("type", "path"), ("required", "required")]
      "string" "string",
     StructField.mk 1 "Q" false false [("type", "query")] "string" "string"]
    33554432 (by decide) _ (by decide) (by decide)


/-! ## Claim C2: panic recovery at the bind boundary -/

/-- Claim C2: when any step of the per-field resolution loop raises a
panic, the deferred recovery of `Struct.BindParam`, and likewise of
`ParamsAPI.BindFields`, turns it into an ordinary error value naming
the schema and naming the field as a question mark; the bind call
itself always returns a plain error value. -/
theorem bind_recovers_panics :
    (∀ (ca : ConvertAssign) (bdf : BodyDecode) (rx : RegexpMatch) (m : Struct)
       (req : HRequest) (slots : List GoValue) (p : String),
       bindLoop ca bdf m.Name req (m.Fields.zip slots) = .error p →
       BindParam ca bdf rx m req slots = some (NewError m.Name "?" p))
    ∧ (∀ (ca : ConvertAssign) (bdf : BodyDecode) (pv : ParamValidate)
       (papi : ParamsAPIModel) (req : PRequest)
       (pathParams : List (String × String)) (fields : List GoValue) (p : String),
       req.parseFormErr = none →
       bindFieldsLoop ca bdf pv papi.name req pathParams (papi.params.zip fields) = .error p →
       BindFields ca bdf pv papi req pathParams fields = some (NewError papi.name "?" p)) := by
  constructor
  · intro ca bdf rx m req slots p h
    unfold BindParam
    rw [h]
  · intro ca bdf pv papi req pps fields p hpf h
    unfold BindFields
    rw [hpf, h]

/-- Witness for C2: a panicking coercion on a present query parameter
is returned as the question-mark bind error by both engines. -/
theorem bind_recovers_panics_witness :
    BindParam caPanic bdfKeep rxAll
        (Struct.mk "apiware.T" [StructField.mk 0 "q" false false [("type", "query")] "string" "string"] 33554432)
        (hreqQ "q" ["v"]) [.vstr ""] =
      some (NewError "apiware.T" "?" "runtime error: conversion fault") ∧
    BindFields caPanic bdfKeep pvAccept
        (ParamsAPIModel.mk "apiware.T" [Param.mk [0] "q" false false [("type", "query")] "string"] 33554432)
        (preqQ "q" ["v"]) [] [.vstr ""] =
      some (NewError "apiware.T" "?" "runtime error: conversion fault") := by
  constructor
  · exact bind_recovers_panics.1 caPanic bdfKeep rxAll
      (Struct.mk "apiware.T" [StructField.mk 0 "q" false false [("type", "query")] "string" "string"] 33554432)
      (hreqQ "q" ["v"]) [.vstr ""] "runtime error: conversion fault" (by decide)
  · exact bind_recovers_panics.2 caPanic bdfKeep pvAccept
      (ParamsAPIModel.mk "apiware.T" [Param.mk [0] "q" false false [("type", "query")] "string"] 33554432)
      (preqQ "q" ["v"]) [] [.vstr ""] "runtime error: conversion fault" rfl (by decide)

/-! ## Claim C8: custom error message override -/

/-- Counterexample to C8: a field carrying both a custom `err` message
and a malformed length tuple; the tuple makes the validation body
panic, and `StructField.Validate` then returns no error at all instead
of the custom message. -/
theorem validate_err_override_cex :
    fieldValidateBody rxAll (c8Field (.vstr "abc")) = .error "invalid validation tuple" ∧
    tagsGet (c8Field (.vstr "abc")).Tags TAG_ERR = some "custom" ∧
    fieldValidate rxAll (c8Field (.vstr "abc")) = none := by
  refine ⟨by decide, by decide, by decide⟩

/-- Claim C8 as amended: with a custom `err` message present, any
constraint failure of the validation body is replaced by exactly that
message; a validation body that succeeds yields no error; but an
unexpected internal fault (panic) during validation is swallowed and
`StructField.Validate` returns no error, not the custom message. -/
theorem validate_err_override :
    ∀ (rx : RegexpMatch) (f : VField) (errStr : String),
      tagsGet f.Tags TAG_ERR = some errStr →
      ((∀ e, fieldValidateBody rx f = .ok (some e) → fieldValidate rx f = some errStr)
       ∧ (fieldValidateBody rx f = .ok none → fieldValidate rx f = none)
       ∧ (∀ p, fieldValidateBody rx f = .error p → fieldValidate rx f = none)) := by
  intro rx f errStr he
  refine ⟨?_, ?_, ?_⟩
  · intro e hb
    unfold fieldValidate
    rw [he, hb]
  · intro hb
    unfold fieldValidate
    rw [he, hb]
  · intro p hb
    unfold fieldValidate
    rw [he, hb]

/-- Witness for C8: the swallowed-panic branch applied to the concrete
field of the counterexample. -/
theorem validate_err_override_witness :
    fieldValidate rxAll (c8Field (.vstr "abc")) = none :=
  (validate_err_override rxAll (c8Field (.vstr "abc")) "custom" (by decide)).2.2
    "invalid validation tuple" (by decide)

/-! ## Claim C9: optional query field missing from the request -/

/-- Counterexample to C9: an optional query field constrained `nonzero`
whose name is absent from the query map; the resolution step leaves the
slot alone, but the bind call still fails on account of that field in
the validation pass, with its not-set error. -/
theorem bind_query_optional_cex :
    addFields identName "apiware.T9" c9Fields =
      .ok ([StructField.mk 0 "Q" false false
        [("type", "query"), ("nonzero", "")] "string" "string"], 33554432) ∧
    BindParam caFirst bdfKeep rxAll
        (Struct.mk "apiware.T9"
          [StructField.mk 0 "Q" false false
            [("type", "query"), ("nonzero", "")] "string" "string"] 33554432)
        hreqEmpty [.vstr ""] =
      some (NewError "apiware.T9" "Q" "Q not set") := by
  refine ⟨by decide, by decide⟩

/-- Claim C9 as amended: for a non-required query-channel field whose
name has no entry in the query multi-map, the per-field resolution step
neither fails nor writes the slot, and a completed resolution loop
leaves that slot at its initial (zero) value; the subsequent validation
pass may still fail the field (for example a nonzero constraint over
the zero value). -/
theorem bind_query_optional :
    (∀ (ca : ConvertAssign) (bdf : BodyDecode) (mName : String) (req : HRequest)
       (f : StructField) (v : GoValue),
       tagsGetD f.Tags "type" = "query" → f.isRequired = false →
       mmGet req.query f.Name = none →
       bindStep ca bdf mName req f v = .ok (.ok v))
    ∧ (∀ (ca : ConvertAssign) (bdf : BodyDecode) (mName : String) (req : HRequest)
       (l : List (StructField × GoValue)) (out : List GoValue) (i : Nat)
       (f : StructField) (v : GoValue),
       bindLoop ca bdf mName req l = .ok (.ok out) →
       l.get? i = some (f, v) →
       tagsGetD f.Tags "type" = "query" → f.isRequired = false →
       mmGet req.query f.Name = none →
       out.get? i = some v) := by
  have step : ∀ (ca : ConvertAssign) (bdf : BodyDecode) (mName : String) (req : HRequest)
      (f : StructField) (v : GoValue),
      tagsGetD f.Tags "type" = "query" → f.isRequired = false →
      mmGet req.query f.Name = none →
      bindStep ca bdf mName req f v = .ok (.ok v) := by
    intro ca bdf mName req f v hty hreq hq
    unfold bindStep
    rw [hty]
    rw [if_neg (by decide), if_pos rfl, hq, hreq]
    rfl
  refine ⟨step, ?_⟩
  intro ca bdf mName req l
  induction l with
  | nil =>
    intro out i f v h hi
    cases hi
  | cons hd tl ih =>
    intro out i f v h hi hty hreq hq
    obtain ⟨f0, v0⟩ := hd
    simp only [bindLoop] at h
    cases hs : bindStep ca bdf mName req f0 v0 with
    | error p =>
      simp only [hs] at h
      exact Except.noConfusion h
    | ok r =>
      cases r with
      | error e =>
        simp only [hs] at h
        exact Except.noConfusion (Except.ok.inj h)
      | ok v2 =>
        simp only [hs] at h
        cases hl : bindLoop ca bdf mName req tl with
        | error p =>
          simp only [hl] at h
          exact Except.noConfusion h
        | ok r2 =>
          cases r2 with
          | error e =>
            simp only [hl] at h
            exact Except.noConfusion (Except.ok.inj h)
          | ok vs =>
            simp only [hl, Except.ok.injEq] at h
            subst h
            cases i with
            | zero =>
              simp only [List.get?] at hi
              obtain ⟨hf, hv⟩ := Prod.mk.injEq .. ▸ Option.some.inj hi
              rw [← hf] at hty hreq hq
              rw [step ca bdf mName req f0 v0 hty hreq hq] at hs
              obtain rfl := Except.ok.inj (Except.ok.inj hs)
              simp [List.get?, hv]
            | succ n =>
              exact ih vs n f v hl hi hty hreq hq

/-- Witness for C9: a schema with one optional unconstrained query
field, bound against an empty request: the loop leaves the slot at the
zero string. -/
theorem bind_query_optional_witness :
    bindStep caFirst bdfKeep "apiware.T"
        hreqEmpty (StructField.mk 0 "q" false false [("type", "query")] "string" "string")
        (.vstr "") =
      .ok (.ok (.vstr "")) :=
  bind_query_optional.1 caFirst bdfKeep "apiware.T" hreqEmpty
    (StructField.mk 0 "q" false false [("type", "query")] "string" "string")
    (.vstr "") rfl rfl rfl

/-! ## Claim C10: length constraint on a string-slice field -/

/-- Claim C10: the ParamsAPI compiler accepts a `len` constraint on a
`[]string` field, but the validator extracts a string only from a plain
string value, so for every `[]string` value the length check passes
silently, whatever the element count or element lengths; a full
validation of such a field with only the length constraint returns no
error. -/
theorem strSlice_len_skipped :
    (paramsAddFields identName "apiware.Slice" c10Fields =
      .ok ([Param.mk [0] "P" false false
        [("type", "query"), ("len", "1:10")] "[]string"], 33554432))
    ∧ (∀ (xs : List String) (f : VField),
        f.Value = .vstrSlice xs → lenCheck f = .ok none)
    ∧ (∀ (rx : RegexpMatch) (xs : List String),
        fieldValidate rx
          (VField.mk "P" [("type", "query"), ("len", "1:10")] (.vstrSlice xs)) = none) := by
  refine ⟨by decide, ?_, ?_⟩
  · intro xs f hv
    unfold lenCheck
    rw [hv]
    cases tagsGet f.Tags "len" <;> rfl
  · intro rx xs
    rfl

/-- Witness for C10: the length check applied to a concrete two-element
string slice. -/
theorem strSlice_len_skipped_witness :
    lenCheck (VField.mk "P" [("len", ":")] (.vstrSlice ["a", "bb"])) = .ok none :=
  strSlice_len_skipped.2.1 ["a", "bb"]
    (VField.mk "P" [("len", ":")] (.vstrSlice ["a", "bb"])) rfl


/-! ## Claim C7: the aggregate multipart memory limit -/

theorem maxmbStep_ok (tname fname : String) (tags : TagMap) (m m2 : Int)
    (h : maxmbStep tname fname tags m = .ok m2) :
    m2 = (match tagsGet tags "maxmb" with
          | none => m
          | some a =>
            match goParseInt a with
            | .ok n => if n > m then n else m
            | .error _ => m) := by
  unfold maxmbStep at h
  cases hg : tagsGet tags "maxmb" with
  | none =>
    rw [hg] at h
    exact (Except.ok.inj h).symm
  | some a =>
    rw [hg] at h
    dsimp only at h ⊢
    cases hp : goParseInt a with
    | error e =>
      rw [hp] at h
      exact Except.noConfusion h
    | ok n =>
      rw [hp] at h
      exact (Except.ok.inj h).symm

/-- The running-maximum update a successful `addOneField` performs on
the `maxmb` accumulator. -/
theorem addOneField_ok_maxMB (pnf : String → String) (tname : String) (i : Nat)
    (fm : FieldMeta) (ft : GoType) (tag : String) (hFD hB : Bool) (m : Int)
    (h1 h2 : Bool) (m2 : Int) (fd : StructField)
    (h : addOneField pnf tname i fm ft tag hFD hB m = .ok (h1, h2, m2, fd)) :
    m2 = (match tagsGet (parseTags tag) "maxmb" with
          | none => m
          | some a =>
            match goParseInt a with
            | .ok n => if n > m then n else m
            | .error _ => m) := by
  obtain ⟨tags0, hcs, hms, hfd⟩ := addOneField_ok pnf tname i fm ft tag hFD hB m h1 h2 m2 fd h
  have hm := maxmbStep_ok tname fm.fname tags0 m m2 hms
  rcases channelSwitch_ok _ _ _ _ _ _ _ _ _ _ _ hcs with ⟨_, rfl⟩ | ⟨_, rfl⟩
  · exact hm
  · rw [tagsGet_tagsSet_ne _ _ _ _ (by decide)] at hm
    exact hm

theorem levelMaxMB_cons (m : Int) (fm : FieldMeta) (ft : GoType) (rest : GoFields) :
    levelMaxMB m (.cons fm ft rest) =
      (match maxmbOf fm with
       | some a =>
         match goParseInt a with
         | .ok n => levelMaxMB (if n > m then n else m) rest
         | .error _ => levelMaxMB m rest
       | none => levelMaxMB m rest) := by
  simp only [levelMaxMB]

/-- The final `maxMemoryMB` accumulator of one walk level is the
running maximum of the parseable `maxmb` options of its direct fields;
recursive calls for embedded records contribute nothing. -/
theorem addFieldsAux_maxMB (pnf : String → String) :
    ∀ (tname : String) (flds : GoFields) (i : Nat) (hFD hB : Bool) (m : Int)
      (acc : List StructField) (out : List StructField × Bool × Bool × Int),
      addFieldsAux pnf tname flds i hFD hB m acc = .ok out →
      out.2.2.2 = levelMaxMB m flds := by
  intro tname flds i hFD hB m acc
  induction tname, flds, i, hFD, hB, m, acc using addFieldsAux.induct pnf with
  | case1 tname i hFD hB m acc =>
    intro out h
    rw [addFieldsAux_nil] at h
    obtain rfl := Except.ok.inj h
    rfl
  | case2 tname fm rest i hFD hB m acc ststr tn1 sub hanon htag e hin ih =>
    intro out h
    rw [addFieldsAux_cons_anon pnf tname ststr tn1 fm sub rest i hFD hB m acc hanon htag,
      hin] at h
    exact Except.noConfusion h
  | case3 tname fm rest i hFD hB m acc ststr tn1 sub hanon htag acc2 f1 f2 mm hin ih1 ih2 =>
    intro out h
    rw [addFieldsAux_cons_anon pnf tname ststr tn1 fm sub rest i hFD hB m acc hanon htag,
      hin] at h
    rw [levelMaxMB_cons, show maxmbOf fm = none from by unfold maxmbOf; rw [htag]]
    exact ih2 out h
  | case4 tname fm ft rest i hFD hB m acc htag hexc ih =>
    intro out h
    rw [addFieldsAux_cons_skip pnf tname fm ft rest i hFD hB m acc htag hexc] at h
    rw [levelMaxMB_cons, show maxmbOf fm = none from by unfold maxmbOf; rw [htag]]
    exact ih out h
  | case5 tname fm ft rest i hFD hB m acc htag ih =>
    intro out h
    rw [addFieldsAux_cons_ignore pnf tname fm ft rest i hFD hB m acc htag] at h
    rw [levelMaxMB_cons,
      show maxmbOf fm = none from by unfold maxmbOf; rw [htag]; dsimp only; rw [if_pos rfl]]
    exact ih out h
  | case6 tname fm ft rest i hFD hB m acc tag htag hig e hof =>
    intro out h
    rw [addFieldsAux_cons_tagged pnf tname fm ft rest i hFD hB m acc tag htag hig, hof] at h
    exact Except.noConfusion h
  | case7 tname fm ft rest i hFD hB m acc tag htag hig f1 f2 mm fd hof ih =>
    intro out h
    rw [addFieldsAux_cons_tagged pnf tname fm ft rest i hFD hB m acc tag htag hig, hof] at h
    have hstep := addOneField_ok_maxMB pnf tname i fm ft tag hFD hB m f1 f2 mm fd hof
    rw [show levelMaxMB m (.cons fm ft rest) = levelMaxMB mm rest from by
      have hmo : maxmbOf fm = tagsGet (parseTags tag) "maxmb" := by
        unfold maxmbOf; rw [htag]; dsimp only; rw [if_neg hig]
      rw [levelMaxMB_cons, hmo]
      cases hg : tagsGet (parseTags tag) "maxmb" with
      | none =>
        rw [hg] at hstep
        dsimp only at hstep ⊢
        rw [hstep]
      | some a =>
        rw [hg] at hstep
        dsimp only at hstep ⊢
        cases hp : goParseInt a with
        | error e2 =>
          rw [hp] at hstep
          dsimp only at hstep ⊢
          rw [hstep]
        | ok n =>
          rw [hp] at hstep
          dsimp only at hstep ⊢
          rw [hstep]]
    exact ih out h

/-- Counterexample to C7: a schema whose only bindable field comes from
an embedded anonymous record and declares `maxmb(64)`; compilation
succeeds with that field in the schema, yet the aggregate limit is the
32 MiB default, not 64 MiB, because the outer call of `addFields`
overwrites the limit computed by the recursive call. -/
theorem maxMemory_cex :
    addFields identName "apiware.OuterMB" c7Fields =
      .ok ([StructField.mk 0 "F1" false false
        [("type", "query"), ("maxmb", "64")] "string" "string"], 33554432) ∧
    (33554432 : Int) ≠ 64 * MB := by
  refine ⟨by decide, by decide⟩

/-- Claim C7 as amended: after a successful compilation the aggregate
limit is `M * MB` where `M` is the running maximum of the parseable
`maxmb` options of the record's directly declared fields, provided
`M > 0`; otherwise it is the fixed 32 MiB default.  Options on the
fields of embedded anonymous records do not reach the outer schema, and
non-positive options never raise the running maximum. -/
theorem maxMemory_spec :
    ∀ (pnf : String → String) (tstr : String) (flds : GoFields)
      (fs : List StructField) (mm : Int),
      addFields pnf tstr flds = .ok (fs, mm) →
      mm = if levelMaxMB 0 flds > 0 then levelMaxMB 0 flds * MB else defaultMaxMemory := by
  intro pnf tstr flds fs mm h
  unfold addFields at h
  cases haux : addFieldsAux pnf tstr flds 0 false false 0 [] with
  | error e =>
    rw [haux] at h
    exact Except.noConfusion h
  | ok out =>
    obtain ⟨acc, b1, b2, mx⟩ := out
    rw [haux] at h
    simp only [Except.ok.injEq, Prod.mk.injEq] at h
    have hmx : mx = levelMaxMB 0 flds :=
      addFieldsAux_maxMB pnf tstr flds 0 false false 0 [] (acc, b1, b2, mx) haux
    rw [← h.2, hmx]

/-- Witness for C7: the amended limit formula applied to the
counterexample schema, where the direct-level maximum is zero and the
default applies. -/
theorem maxMemory_spec_witness :
    (33554432 : Int) =
      if levelMaxMB 0 c7Fields > 0 then levelMaxMB 0 c7Fields * MB else defaultMaxMemory :=
  maxMemory_spec identName "apiware.OuterMB" c7Fields
    [StructField.mk 0 "F1" false false
      [("type", "query"), ("maxmb", "64")] "string" "string"] 33554432 (by decide)


/-! ## Claims C1 and C6: channel conflicts and shape/channel pairings -/

/-- Flag updates of a successful channel switch. -/
theorem channelSwitch_flags (msg tname fname pt fts : String) (tags : TagMap)
    (hFD hB h1 h2 : Bool) (tags0 : TagMap)
    (h : channelSwitch msg tname fname pt fts tags hFD hB = .ok (h1, h2, tags0)) :
    (pt = "formData" ∧ hB = false ∧ h1 = true ∧ h2 = hB) ∨
    (pt = "body" ∧ hFD = false ∧ hB = false ∧ h1 = hFD ∧ h2 = true) ∨
    (pt ≠ "formData" ∧ pt ≠ "body" ∧ h1 = hFD ∧ h2 = hB) := by
  unfold channelSwitch at h
  split_ifs at h with hfd hb hbody hfd2 hb2 hpath hcookie hwl hpt <;>
    simp only [Except.ok.injEq, Prod.mk.injEq] at h
  · exact .inl ⟨hfd, Bool.not_eq_true _ ▸ hb, h.1.symm, h.2.1.symm⟩
  · exact .inr (.inl ⟨hbody, Bool.not_eq_true _ ▸ hfd2, Bool.not_eq_true _ ▸ hb2,
      h.1.symm, h.2.1.symm⟩)
  · exact .inr (.inr ⟨hfd, hbody, h.1.symm, h.2.1.symm⟩)
  · exact .inr (.inr ⟨hfd, hbody, h.1.symm, h.2.1.symm⟩)
  · exact .inr (.inr ⟨hfd, hbody, h.1.symm, h.2.1.symm⟩)

/-- The throw sites of the channel switch and their reasons. -/
theorem channelSwitch_error (msg tname fname pt fts : String) (tags : TagMap)
    (hFD hB : Bool) (e : Err)
    (h : channelSwitch msg tname fname pt fts tags hFD hB = .error e) :
    (pt = "formData" ∧ hB = true ∧ e.reason = conflictErrMsg) ∨
    (pt = "body" ∧ hFD = true ∧ e.reason = conflictErrMsg) ∨
    (pt = "body" ∧ hB = true ∧ e.reason = multiBodyErrMsg) ∨
    (pt = "cookie" ∧ cookieWhitelist fts = false ∧ e.reason = cookieWhitelistErrMsg) ∨
    e.reason = msg := by
  unfold channelSwitch at h
  split_ifs at h with hfd hb hbody hfd2 hb2 hpath hcookie hwl hpt <;>
    simp only [Except.error.injEq] at h
  · exact .inl ⟨hfd, hb, by rw [← h]; rfl⟩
  · exact .inr (.inl ⟨hbody, hfd2, by rw [← h]; rfl⟩)
  · exact .inr (.inr (.inl ⟨hbody, hb2, by rw [← h]; rfl⟩))
  · exact .inr (.inr (.inr (.inl ⟨hcookie, Bool.not_eq_true _ ▸ hwl, by rw [← h]; rfl⟩)))
  · exact .inr (.inr (.inr (.inr (by rw [← h]; rfl))))

theorem ne_of_data_head (s t : String) (h : s.data.head? ≠ t.data.head?) : s ≠ t :=
  fun he => h (congrArg (fun u => u.data.head?) he)

theorem fileShapeErrMsg_head (ts : String) :
    (fileShapeErrMsg ts).data.head? = some (Char.ofNat 119) := by
  show (("when field type is `" ++ ts) ++ "`, param type must be `formData`").data.head? =
    some (Char.ofNat 119)
  rw [String.data_append, String.data_append]
  rfl

theorem cookieShapeErrMsg_head (ts : String) :
    (cookieShapeErrMsg ts).data.head? = some (Char.ofNat 119) := by
  show (("when field type is `" ++ ts) ++ "`, param type must be `cookie`").data.head? =
    some (Char.ofNat 119)
  rw [String.data_append, String.data_append]
  rfl

/-- Shape-check messages are never conflict messages, for every field
type string. -/
theorem fileShape_not_conflictReason (ts : String) :
    ¬ conflictReason (fileShapeErrMsg ts) := by
  rintro (h | h)
  · exact ne_of_data_head _ _ (by rw [fileShapeErrMsg_head]; decide) h
  · exact ne_of_data_head _ _ (by rw [fileShapeErrMsg_head]; decide) h

theorem cookieShape_not_conflictReason (ts : String) :
    ¬ conflictReason (cookieShapeErrMsg ts) := by
  rintro (h | h)
  · exact ne_of_data_head _ _ (by rw [cookieShapeErrMsg_head]; decide) h
  · exact ne_of_data_head _ _ (by rw [cookieShapeErrMsg_head]; decide) h


/-- The per-level running check is order-independent: it fires exactly
when both exclusive channels appear among the direct fields, or the
body channel appears twice, or an initial flag already claims a
channel that appears. -/
theorem conflictPendingB_iff (hFD hB : Bool) (flds : GoFields) :
    conflictPendingB hFD hB flds = true ↔
      (hB = true ∧ ("formData" ∈ levelChannels flds ∨ "body" ∈ levelChannels flds)) ∨
      (hFD = true ∧ "body" ∈ levelChannels flds) ∨
      ("formData" ∈ levelChannels flds ∧ "body" ∈ levelChannels flds) ∨
      2 ≤ (levelChannels flds).count "body" := by
  induction hFD, hB, flds using conflictPendingB.induct with
  | case1 a b =>
    simp [conflictPendingB, levelChannels]
  | case2 a b fm ft rest hch ih =>
    have hL : conflictPendingB a b (.cons fm ft rest) = (b || conflictPendingB true b rest) := by
      simp only [conflictPendingB, hch]
      simp
    have hC : levelChannels (.cons fm ft rest) = "formData" :: levelChannels rest := by
      simp only [levelChannels, hch]
    rw [hL, hC, Bool.or_eq_true, ih]
    simp only [List.mem_cons, eq_self_iff_true, true_or, or_true, and_true, true_and,
      (by decide : ¬("body" : String) = "formData"), false_or,
      show (("formData" :: levelChannels rest).count "body") =
        (levelChannels rest).count "body" from rfl]
    simp only [← List.count_pos_iff]
    cases a <;> cases b <;>
      simp only [show (true = true) = True from by simp,
        show (false = true) = False from by simp,
        true_and, false_and, true_or, false_or, or_false, or_true, and_true,
        and_false] <;> first | omega | tauto
  | case3 a b fm ft rest hch hne ih =>
    have hL : conflictPendingB a b (.cons fm ft rest) =
        (a || b || conflictPendingB a true rest) := by
      simp only [conflictPendingB, hch]
      simp
    have hC : levelChannels (.cons fm ft rest) = "body" :: levelChannels rest := by
      simp only [levelChannels, hch]
    rw [hL, hC, Bool.or_eq_true, Bool.or_eq_true, ih]
    simp only [List.mem_cons, eq_self_iff_true, true_or, or_true, and_true, true_and,
      (by decide : ¬("formData" : String) = "body"), false_or,
      show (("body" :: levelChannels rest).count "formData") =
        (levelChannels rest).count "formData" from rfl,
      List.count_cons_self]
    simp only [← List.count_pos_iff]
    cases a <;> cases b <;>
      simp only [show (true = true) = True from by simp,
        show (false = true) = False from by simp,
        true_and, false_and, true_or, false_or, or_false, or_true, and_true,
        and_false] <;> first | omega | tauto
  | case4 a b fm ft rest pt hch hne1 hne2 ih =>
    have hL : conflictPendingB a b (.cons fm ft rest) = conflictPendingB a b rest := by
      simp only [conflictPendingB, hch]
      rw [if_neg hne1, if_neg hne2]
    have hC : levelChannels (.cons fm ft rest) = pt :: levelChannels rest := by
      simp only [levelChannels, hch]
    rw [hL, hC, ih]
    simp only [List.mem_cons,
      show (("formData" : String) = pt) ↔ False from
        ⟨fun he => hne1 he.symm, False.elim⟩,
      show (("body" : String) = pt) ↔ False from
        ⟨fun he => hne2 he.symm, False.elim⟩, false_or,
      List.count_cons, beq_iff_eq, if_neg hne2, Nat.add_zero]
  | case5 a b fm ft rest hch ih =>
    have hL : conflictPendingB a b (.cons fm ft rest) = conflictPendingB a b rest := by
      simp only [conflictPendingB, hch]
    have hC : levelChannels (.cons fm ft rest) = levelChannels rest := by
      simp only [levelChannels, hch]
    rw [hL, hC, ih]


theorem levelConflict_iff (flds : GoFields) :
    levelConflict flds = true ↔
      ("formData" ∈ levelChannels flds ∧ "body" ∈ levelChannels flds) ∨
      2 ≤ (levelChannels flds).count "body" := by
  unfold levelConflict
  simp only [Bool.or_eq_true, Bool.and_eq_true, List.contains, List.elem_iff,
    decide_eq_true_eq]

/-- With fresh flags, the running check of a level is exactly the
declarative per-level conflict predicate. -/
theorem conflictPendingB_eq_levelConflict (flds : GoFields) :
    conflictPendingB false false flds = levelConflict flds := by
  rw [Bool.eq_iff_iff, conflictPendingB_iff, levelConflict_iff]
  simp

theorem fieldChannel_none (fm : FieldMeta) (htag : fm.tagParam = none) :
    fieldChannel fm = none := by
  unfold fieldChannel
  rw [htag]

theorem fieldChannel_ignore (fm : FieldMeta)
    (htag : fm.tagParam = some TAG_IGNORE_PARAM) :
    fieldChannel fm = none := by
  unfold fieldChannel
  rw [htag]
  dsimp only
  rw [if_pos rfl]

theorem fieldChannel_tagged (fm : FieldMeta) (tag : String)
    (htag : fm.tagParam = some tag) (hig : tag ≠ TAG_IGNORE_PARAM) :
    fieldChannel fm = some (tagsGetD (parseTags tag) "type") := by
  unfold fieldChannel
  rw [htag]
  dsimp only
  rw [if_neg hig]

theorem conflictPendingB_cons_none (fm : FieldMeta) (ft : GoType) (rest : GoFields)
    (hFD hB : Bool) (hch : fieldChannel fm = none) :
    conflictPendingB hFD hB (.cons fm ft rest) = conflictPendingB hFD hB rest := by
  simp only [conflictPendingB, hch]

/-- A pending conflict at the level being walked makes the field walk
return an error. -/
theorem conflictPending_error (pnf : String → String) :
    ∀ (tname : String) (flds : GoFields) (i : Nat) (hFD hB : Bool) (m : Int)
      (acc : List StructField),
      conflictPendingB hFD hB flds = true →
      ∃ e, addFieldsAux pnf tname flds i hFD hB m acc = .error e := by
  intro tname flds i hFD hB m acc
  induction tname, flds, i, hFD, hB, m, acc using addFieldsAux.induct pnf with
  | case1 tname i hFD hB m acc =>
    intro hp
    exact absurd hp (by simp [conflictPendingB])
  | case2 tname fm rest i hFD hB m acc ststr tn1 sub hanon htag e hin ih =>
    intro hp
    exact ⟨e, by
      rw [addFieldsAux_cons_anon pnf tname ststr tn1 fm sub rest i hFD hB m acc hanon htag,
        hin]⟩
  | case3 tname fm rest i hFD hB m acc ststr tn1 sub hanon htag acc2 f1 f2 mm hin ih1 ih2 =>
    intro hp
    rw [conflictPendingB_cons_none fm _ rest hFD hB (fieldChannel_none fm htag)] at hp
    obtain ⟨e, he⟩ := ih2 hp
    exact ⟨e, by
      rw [addFieldsAux_cons_anon pnf tname ststr tn1 fm sub rest i hFD hB m acc hanon htag,
        hin]
      exact he⟩
  | case4 tname fm ft rest i hFD hB m acc htag hexc ih =>
    intro hp
    rw [conflictPendingB_cons_none fm ft rest hFD hB (fieldChannel_none fm htag)] at hp
    obtain ⟨e, he⟩ := ih hp
    exact ⟨e, by
      rw [addFieldsAux_cons_skip pnf tname fm ft rest i hFD hB m acc htag hexc]
      exact he⟩
  | case5 tname fm ft rest i hFD hB m acc htag ih =>
    intro hp
    rw [conflictPendingB_cons_none fm ft rest hFD hB (fieldChannel_ignore fm htag)] at hp
    obtain ⟨e, he⟩ := ih hp
    exact ⟨e, by
      rw [addFieldsAux_cons_ignore pnf tname fm ft rest i hFD hB m acc htag]
      exact he⟩
  | case6 tname fm ft rest i hFD hB m acc tag htag hig e hof =>
    intro hp
    exact ⟨e, by
      rw [addFieldsAux_cons_tagged pnf tname fm ft rest i hFD hB m acc tag htag hig, hof]⟩
  | case7 tname fm ft rest i hFD hB m acc tag htag hig f1 f2 mm fd hof ih =>
    intro hp
    have hch := fieldChannel_tagged fm tag htag hig
    obtain ⟨tags0, hcs, hms, hfd⟩ :=
      addOneField_ok pnf tname i fm ft tag hFD hB m f1 f2 mm fd hof
    have hrest : conflictPendingB f1 f2 rest = true := by
      rcases channelSwitch_flags _ _ _ _ _ _ _ _ _ _ _ hcs with
        ⟨hpt, hBf, hf1, hf2⟩ | ⟨hpt, hFDf, hBf, hf1, hf2⟩ | ⟨hpt1, hpt2, hf1, hf2⟩
      · rw [hpt] at hch
        simp only [conflictPendingB, hch] at hp
        rw [hBf] at hp
        simp at hp
        rw [hf1, hf2, hBf]
        exact hp
      · rw [hpt] at hch
        simp only [conflictPendingB, hch] at hp
        rw [hFDf, hBf] at hp
        simp at hp
        rw [hf1, hf2, hFDf]
        exact hp
      · simp only [conflictPendingB, hch] at hp
        rw [if_neg hpt1, if_neg hpt2] at hp
        rw [hf1, hf2]
        exact hp
    obtain ⟨e, he⟩ := ih hrest
    exact ⟨e, by
      rw [addFieldsAux_cons_tagged pnf tname fm ft rest i hFD hB m acc tag htag hig, hof]
      exact he⟩


theorem anyLevelConflict_cons (fm : FieldMeta) (ft : GoType) (rest : GoFields) :
    anyLevelConflict (.cons fm ft rest) =
      ((match fm.tagParam, fm.anonymous, ft with
        | none, true, .struc _ _ sub => levelConflict sub || anyLevelConflict sub
        | _, _, _ => false) || anyLevelConflict rest) := by
  rw [anyLevelConflict.eq_def]

theorem anyLevelConflict_cons_anon (fm : FieldMeta) (ststr tn1 : String)
    (sub rest : GoFields) (hanon : fm.anonymous = true) (htag : fm.tagParam = none) :
    anyLevelConflict (.cons fm (.struc ststr tn1 sub) rest) =
      ((levelConflict sub || anyLevelConflict sub) || anyLevelConflict rest) := by
  rw [anyLevelConflict_cons, htag, hanon]

theorem anyLevelConflict_cons_skip (fm : FieldMeta) (ft : GoType) (rest : GoFields)
    (htag : fm.tagParam = none)
    (hexc : ∀ ststr tn1 subFields, fm.anonymous = true →
      ft = GoType.struc ststr tn1 subFields → False) :
    anyLevelConflict (.cons fm ft rest) = anyLevelConflict rest := by
  rw [anyLevelConflict_cons, htag]
  cases hA : fm.anonymous with
  | false => cases ft <;> rfl
  | true =>
    cases ft with
    | atom k ts tn => rfl
    | struc ts tn sub => exact absurd rfl (hexc ts tn sub hA)

theorem anyLevelConflict_cons_tagged (fm : FieldMeta) (ft : GoType) (rest : GoFields)
    (tag : String) (htag : fm.tagParam = some tag) :
    anyLevelConflict (.cons fm ft rest) = anyLevelConflict rest := by
  rw [anyLevelConflict_cons, htag]
  cases fm.anonymous <;> cases ft <;> rfl

/-- A per-level conflict inside an embedded anonymous record reached by
the walk also makes the field walk return an error. -/
theorem anyLevelConflict_error (pnf : String → String) :
    ∀ (tname : String) (flds : GoFields) (i : Nat) (hFD hB : Bool) (m : Int)
      (acc : List StructField),
      anyLevelConflict flds = true →
      ∃ e, addFieldsAux pnf tname flds i hFD hB m acc = .error e := by
  intro tname flds i hFD hB m acc
  induction tname, flds, i, hFD, hB, m, acc using addFieldsAux.induct pnf with
  | case1 tname i hFD hB m acc =>
    intro hp
    exact absurd hp (by simp [anyLevelConflict])
  | case2 tname fm rest i hFD hB m acc ststr tn1 sub hanon htag e hin ih =>
    intro hp
    exact ⟨e, by
      rw [addFieldsAux_cons_anon pnf tname ststr tn1 fm sub rest i hFD hB m acc hanon htag,
        hin]⟩
  | case3 tname fm rest i hFD hB m acc ststr tn1 sub hanon htag acc2 f1 f2 mm hin ih1 ih2 =>
    intro hp
    rw [anyLevelConflict_cons_anon fm ststr tn1 sub rest hanon htag] at hp
    rw [Bool.or_eq_true] at hp
    rcases hp with hsub | hrest
    · rw [Bool.or_eq_true] at hsub
      rcases hsub with hlvl | hdeep
      · obtain ⟨e, he⟩ := conflictPending_error pnf ststr sub 0 false false 0 acc
          (by rw [conflictPendingB_eq_levelConflict]; exact hlvl)
        rw [hin] at he
        exact Except.noConfusion he
      · obtain ⟨e, he⟩ := ih1 hdeep
        rw [hin] at he
        exact Except.noConfusion he
    · obtain ⟨e, he⟩ := ih2 hrest
      exact ⟨e, by
        rw [addFieldsAux_cons_anon pnf tname ststr tn1 fm sub rest i hFD hB m acc hanon htag,
          hin]
        exact he⟩
  | case4 tname fm ft rest i hFD hB m acc htag hexc ih =>
    intro hp
    rw [anyLevelConflict_cons_skip fm ft rest htag hexc] at hp
    obtain ⟨e, he⟩ := ih hp
    exact ⟨e, by
      rw [addFieldsAux_cons_skip pnf tname fm ft rest i hFD hB m acc htag hexc]
      exact he⟩
  | case5 tname fm ft rest i hFD hB m acc htag ih =>
    intro hp
    rw [anyLevelConflict_cons_tagged fm ft rest TAG_IGNORE_PARAM htag] at hp
    obtain ⟨e, he⟩ := ih hp
    exact ⟨e, by
      rw [addFieldsAux_cons_ignore pnf tname fm ft rest i hFD hB m acc htag]
      exact he⟩
  | case6 tname fm ft rest i hFD hB m acc tag htag hig e hof =>
    intro hp
    exact ⟨e, by
      rw [addFieldsAux_cons_tagged pnf tname fm ft rest i hFD hB m acc tag htag hig, hof]⟩
  | case7 tname fm ft rest i hFD hB m acc tag htag hig f1 f2 mm fd hof ih =>
    intro hp
    rw [anyLevelConflict_cons_tagged fm ft rest tag htag] at hp
    obtain ⟨e, he⟩ := ih hp
    exact ⟨e, by
      rw [addFieldsAux_cons_tagged pnf tname fm ft rest i hFD hB m acc tag htag hig, hof]
      exact he⟩


theorem maxmbStep_error (tname fname : String) (tags : TagMap) (m : Int) (e : Err)
    (h : maxmbStep tname fname tags m = .error e) :
    e = NewError tname fname maxmbErrMsg := by
  unfold maxmbStep at h
  cases hg : tagsGet tags "maxmb" with
  | none =>
    rw [hg] at h
    exact Except.noConfusion h
  | some a =>
    rw [hg] at h
    dsimp only at h
    cases hp : goParseInt a with
    | error e2 =>
      rw [hp] at h
      exact (Except.error.inj h).symm
    | ok n =>
      rw [hp] at h
      exact Except.noConfusion h

/-- The throw sites of `addOneField` and their reasons. -/
theorem addOneField_error (pnf : String → String) (tname : String) (i : Nat)
    (fm : FieldMeta) (ft : GoType) (tag : String) (hFD hB : Bool) (m : Int) (e : Err)
    (h : addOneField pnf tname i fm ft tag hFD hB m = .error e) :
    e.reason = ptrErrMsg ∨
    (ft.str = fileTypeString ∧ tagsGetD (parseTags tag) "type" ≠ "formData" ∧
      e.reason = fileShapeErrMsg ft.str) ∨
    ((ft.str = cookieTypeString ∨ ft.str = fasthttpCookieTypeString) ∧
      tagsGetD (parseTags tag) "type" ≠ "cookie" ∧ e.reason = cookieShapeErrMsg ft.str) ∨
    channelSwitch invalidTypeErrMsg tname fm.fname (tagsGetD (parseTags tag) "type")
      ft.str (parseTags tag) hFD hB = .error e ∨
    e.reason = maxmbErrMsg := by
  unfold addOneField at h
  dsimp only at h
  split at h
  · exact .inl (by rw [← Except.error.inj h]; rfl)
  · split at h
    · rename_i hcond
      exact .inr (.inl ⟨hcond.1, hcond.2, by rw [← Except.error.inj h]; rfl⟩)
    · split at h
      · rename_i hcond2
        exact .inr (.inr (.inl ⟨hcond2.1, hcond2.2, by rw [← Except.error.inj h]; rfl⟩))
      · split at h
        · rename_i e2 hcs
          refine .inr (.inr (.inr (.inl ?_)))
          rw [hcs, Except.error.inj h]
        · rename_i hFD2 hB2 tags0 hcs
          split at h
          · rename_i e3 hms
            refine .inr (.inr (.inr (.inr ?_)))
            rw [← Except.error.inj h, maxmbStep_error tname fm.fname tags0 m e3 hms]
            rfl
          · exact Except.noConfusion h

theorem not_conflictReason_of_ne (s : String) (h1 : s ≠ conflictErrMsg)
    (h2 : s ≠ multiBodyErrMsg) : ¬ conflictReason s := fun hc => hc.elim h1 h2

/-- Without a pending conflict at the walked level nor a per-level
conflict in any embedded record, an error of the field walk never
carries a mutual-exclusion reason. -/
theorem addFieldsAux_no_conflictReason (pnf : String → String) :
    ∀ (tname : String) (flds : GoFields) (i : Nat) (hFD hB : Bool) (m : Int)
      (acc : List StructField),
      conflictPendingB hFD hB flds = false →
      anyLevelConflict flds = false →
      ∀ e, addFieldsAux pnf tname flds i hFD hB m acc = .error e →
        ¬ conflictReason e.reason := by
  intro tname flds i hFD hB m acc
  induction tname, flds, i, hFD, hB, m, acc using addFieldsAux.induct pnf with
  | case1 tname i hFD hB m acc =>
    intro hp hA e he
    rw [addFieldsAux_nil] at he
    exact Except.noConfusion he
  | case2 tname fm rest i hFD hB m acc ststr tn1 sub hanon htag e0 hin ih =>
    intro hp hA e he
    rw [addFieldsAux_cons_anon pnf tname ststr tn1 fm sub rest i hFD hB m acc hanon htag,
      hin] at he
    obtain rfl := Except.error.inj he
    rw [anyLevelConflict_cons_anon fm ststr tn1 sub rest hanon htag] at hA
    simp only [Bool.or_eq_false_iff] at hA
    exact ih (by rw [conflictPendingB_eq_levelConflict]; exact hA.1.1) hA.1.2 e0 hin
  | case3 tname fm rest i hFD hB m acc ststr tn1 sub hanon htag acc2 f1 f2 mm hin ih1 ih2 =>
    intro hp hA e he
    rw [addFieldsAux_cons_anon pnf tname ststr tn1 fm sub rest i hFD hB m acc hanon htag,
      hin] at he
    rw [conflictPendingB_cons_none fm _ rest hFD hB (fieldChannel_none fm htag)] at hp
    rw [anyLevelConflict_cons_anon fm ststr tn1 sub rest hanon htag] at hA
    simp only [Bool.or_eq_false_iff] at hA
    exact ih2 hp hA.2 e he
  | case4 tname fm ft rest i hFD hB m acc htag hexc ih =>
    intro hp hA e he
    rw [addFieldsAux_cons_skip pnf tname fm ft rest i hFD hB m acc htag hexc] at he
    rw [conflictPendingB_cons_none fm ft rest hFD hB (fieldChannel_none fm htag)] at hp
    rw [anyLevelConflict_cons_skip fm ft rest htag hexc] at hA
    exact ih hp hA e he
  | case5 tname fm ft rest i hFD hB m acc htag ih =>
    intro hp hA e he
    rw [addFieldsAux_cons_ignore pnf tname fm ft rest i hFD hB m acc htag] at he
    rw [conflictPendingB_cons_none fm ft rest hFD hB (fieldChannel_ignore fm htag)] at hp
    rw [anyLevelConflict_cons_tagged fm ft rest TAG_IGNORE_PARAM htag] at hA
    exact ih hp hA e he
  | case6 tname fm ft rest i hFD hB m acc tag htag hig e0 hof =>
    intro hp hA e he
    rw [addFieldsAux_cons_tagged pnf tname fm ft rest i hFD hB m acc tag htag hig, hof] at he
    obtain rfl := Except.error.inj he
    have hch := fieldChannel_tagged fm tag htag hig
    rcases addOneField_error pnf tname i fm ft tag hFD hB m e0 hof with
      hr | ⟨_, _, hr⟩ | ⟨_, _, hr⟩ | hcs | hr
    · rw [hr]; exact not_conflictReason_of_ne _ (by decide) (by decide)
    · rw [hr]; exact fileShape_not_conflictReason ft.str
    · rw [hr]; exact cookieShape_not_conflictReason ft.str
    · rcases channelSwitch_error _ _ _ _ _ _ _ _ _ hcs with
        ⟨hpt, hBt, hr⟩ | ⟨hpt, hFDt, hr⟩ | ⟨hpt, hBt, hr⟩ | ⟨hpt, hwl, hr⟩ | hr
      · rw [hpt] at hch
        simp only [conflictPendingB, hch] at hp
        rw [hBt] at hp
        simp at hp
      · rw [hpt] at hch
        simp only [conflictPendingB, hch] at hp
        rw [hFDt] at hp
        simp at hp
      · rw [hpt] at hch
        simp only [conflictPendingB, hch] at hp
        rw [hBt] at hp
        simp at hp
      · rw [hr]; exact not_conflictReason_of_ne _ (by decide) (by decide)
      · rw [hr]; exact not_conflictReason_of_ne _ (by decide) (by decide)
    · rw [hr]; exact not_conflictReason_of_ne _ (by decide) (by decide)
  | case7 tname fm ft rest i hFD hB m acc tag htag hig f1 f2 mm fd hof ih =>
    intro hp hA e he
    rw [addFieldsAux_cons_tagged pnf tname fm ft rest i hFD hB m acc tag htag hig, hof] at he
    have hch := fieldChannel_tagged fm tag htag hig
    rw [anyLevelConflict_cons_tagged fm ft rest tag htag] at hA
    obtain ⟨tags0, hcs, hms, hfd⟩ :=
      addOneField_ok pnf tname i fm ft tag hFD hB m f1 f2 mm fd hof
    have hrest : conflictPendingB f1 f2 rest = false := by
      rcases channelSwitch_flags _ _ _ _ _ _ _ _ _ _ _ hcs with
        ⟨hpt, hBf, hf1, hf2⟩ | ⟨hpt, hFDf, hBf, hf1, hf2⟩ | ⟨hpt1, hpt2, hf1, hf2⟩
      · rw [hpt] at hch
        simp only [conflictPendingB, hch] at hp
        rw [hBf] at hp
        simp at hp
        rw [hf1, hf2, hBf]
        exact hp
      · rw [hpt] at hch
        simp only [conflictPendingB, hch] at hp
        rw [hFDf, hBf] at hp
        simp at hp
        rw [hf1, hf2, hFDf]
        exact hp
      · simp only [conflictPendingB, hch] at hp
        rw [if_neg hpt1, if_neg hpt2] at hp
        rw [hf1, hf2]
        exact hp
    exact ih hrest hA e he


/-- Counterexample to C1: a record whose embedded anonymous record
declares a formData-channel field while the outer record declares a
body-channel field; the compiled schema contains both fields, one on
each of the two exclusive channels, yet compilation succeeds, because
each call of `addFields` tracks the two channel flags in fresh
locals. -/
theorem conflict_cross_level_cex :
    addFields identName "apiware.Outer" c1Fields =
      .ok ([⟨0, "F1", false, false, [("type", "formData")], "string", "string"⟩,
            ⟨1, "B", false, false, [("type", "body")], "string", "string"⟩], 33554432) ∧
    Except.map (fun p => p.1.map fun fd => tagsGetD fd.Tags "type")
      (addFields identName "apiware.Outer" c1Fields) = .ok ["formData", "body"] :=
  ⟨by decide, by decide⟩

/-- Claim C1 as amended: the formData/body mutual-exclusion check is
scoped to one record level, because `addFields` keeps the
`hasFormData`/`hasBody` flags in locals that every recursive call for
an embedded anonymous record resets.  Compilation fails whenever the
direct fields of the outermost level, or of some embedded record level
reached by the walk, contain both a formData-channel and a
body-channel field or more than one body-channel field; when no single
level has such a conflict, a compilation error never carries one of
the two mutual-exclusion messages, even if fields of different levels
conflict with each other. -/
theorem conflict_per_level (pnf : String → String) (tstr : String) (flds : GoFields) :
    ((levelConflict flds || anyLevelConflict flds) = true →
      ∃ e, addFields pnf tstr flds = .error e) ∧
    ((levelConflict flds || anyLevelConflict flds) = false →
      ∀ e, addFields pnf tstr flds = .error e → ¬ conflictReason e.reason) := by
  constructor
  · intro hc
    rw [Bool.or_eq_true] at hc
    unfold addFields
    rcases hc with hl | ha
    · obtain ⟨e, he⟩ := conflictPending_error pnf tstr flds 0 false false 0 []
        (by rw [conflictPendingB_eq_levelConflict]; exact hl)
      exact ⟨e, by rw [he]⟩
    · obtain ⟨e, he⟩ := anyLevelConflict_error pnf tstr flds 0 false false 0 [] ha
      exact ⟨e, by rw [he]⟩
  · intro hc e he
    simp only [Bool.or_eq_false_iff] at hc
    unfold addFields at he
    cases haux : addFieldsAux pnf tstr flds 0 false false 0 [] with
    | error e2 =>
      rw [haux] at he
      obtain rfl := Except.error.inj he
      exact addFieldsAux_no_conflictReason pnf tstr flds 0 false false 0 []
        (by rw [conflictPendingB_eq_levelConflict]; exact hc.1) hc.2 e2 haux
    | ok out =>
      obtain ⟨acc, b1, b2, mx⟩ := out
      rw [haux] at he
      exact Except.noConfusion he

/-- Witness for C1 as amended: a same-level conflict yields a compile
error, and a conflict-free schema that fails for an unrelated reason
does not produce a mutual-exclusion message. -/
theorem conflict_per_level_witness :
    (∃ e, addFields identName "apiware.T1" sameLevelConflictFields = .error e) ∧
    ¬ conflictReason (NewError "apiware.T2" "X" invalidTypeErrMsg).reason :=
  ⟨(conflict_per_level identName "apiware.T1" sameLevelConflictFields).1 (by decide),
   (conflict_per_level identName "apiware.T2" bogusChannelFields).2 (by decide)
     (NewError "apiware.T2" "X" invalidTypeErrMsg) (by decide)⟩


theorem illegalPairing_none (fm : FieldMeta) (ft : GoType)
    (hch : fieldChannel fm = none) : illegalPairing fm ft = false := by
  unfold illegalPairing
  rw [hch]

theorem anyIllegalPairing_cons (fm : FieldMeta) (ft : GoType) (rest : GoFields) :
    anyIllegalPairing (.cons fm ft rest) =
      (illegalPairing fm ft ||
       (match fm.tagParam, fm.anonymous, ft with
        | none, true, .struc _ _ sub => anyIllegalPairing sub
        | _, _, _ => false) ||
       anyIllegalPairing rest) := by
  rw [anyIllegalPairing.eq_def]

theorem anyIllegalPairing_cons_anon (fm : FieldMeta) (ststr tn1 : String)
    (sub rest : GoFields) (hanon : fm.anonymous = true) (htag : fm.tagParam = none) :
    anyIllegalPairing (.cons fm (.struc ststr tn1 sub) rest) =
      (anyIllegalPairing sub || anyIllegalPairing rest) := by
  rw [anyIllegalPairing_cons, htag, hanon,
    illegalPairing_none fm _ (fieldChannel_none fm htag)]
  simp only [Bool.false_or]

theorem anyIllegalPairing_cons_skip (fm : FieldMeta) (ft : GoType) (rest : GoFields)
    (htag : fm.tagParam = none)
    (hexc : ∀ ststr tn1 subFields, fm.anonymous = true →
      ft = GoType.struc ststr tn1 subFields → False) :
    anyIllegalPairing (.cons fm ft rest) = anyIllegalPairing rest := by
  rw [anyIllegalPairing_cons, htag, illegalPairing_none fm ft (fieldChannel_none fm htag)]
  cases hA : fm.anonymous with
  | false => cases ft <;> simp
  | true =>
    cases ft with
    | atom k ts tn => simp
    | struc ts tn sub => exact absurd rfl (hexc ts tn sub hA)

theorem anyIllegalPairing_cons_ignore (fm : FieldMeta) (ft : GoType) (rest : GoFields)
    (htag : fm.tagParam = some TAG_IGNORE_PARAM) :
    anyIllegalPairing (.cons fm ft rest) = anyIllegalPairing rest := by
  rw [anyIllegalPairing_cons, htag, illegalPairing_none fm ft (fieldChannel_ignore fm htag)]
  cases fm.anonymous <;> cases ft <;> simp

theorem anyIllegalPairing_cons_tagged (fm : FieldMeta) (ft : GoType) (rest : GoFields)
    (tag : String) (htag : fm.tagParam = some tag) :
    anyIllegalPairing (.cons fm ft rest) =
      (illegalPairing fm ft || anyIllegalPairing rest) := by
  rw [anyIllegalPairing_cons, htag]
  cases fm.anonymous <;> cases ft <;> simp

/-- An illegal shape/channel pairing makes `addOneField` throw. -/
theorem addOneField_illegal (pnf : String → String) (tname : String) (i : Nat)
    (fm : FieldMeta) (ft : GoType) (tag : String) (hFD hB : Bool) (m : Int)
    (htag : fm.tagParam = some tag) (hig : tag ≠ TAG_IGNORE_PARAM)
    (hil : illegalPairing fm ft = true) :
    ∃ e, addOneField pnf tname i fm ft tag hFD hB m = .error e := by
  have hch := fieldChannel_tagged fm tag htag hig
  unfold illegalPairing at hil
  rw [hch] at hil
  dsimp only at hil
  simp only [Bool.or_eq_true, Bool.and_eq_true, beq_iff_eq, bne_iff_ne,
    Bool.not_eq_true] at hil
  unfold addOneField
  dsimp only
  by_cases hk : ft.kind = GoKind.kptr
  · rw [if_pos hk]
    exact ⟨_, rfl⟩
  · rw [if_neg hk]
    by_cases h1 : ft.str = fileTypeString ∧ tagsGetD (parseTags tag) "type" ≠ "formData"
    · rw [if_pos h1]
      exact ⟨_, rfl⟩
    · rw [if_neg h1]
      by_cases h2 : (ft.str = cookieTypeString ∨ ft.str = fasthttpCookieTypeString) ∧
          tagsGetD (parseTags tag) "type" ≠ "cookie"
      · rw [if_pos h2]
        exact ⟨_, rfl⟩
      · rw [if_neg h2]
        obtain ⟨hpc, hwl⟩ : tagsGetD (parseTags tag) "type" = "cookie" ∧
            cookieWhitelist ft.str = false := by
          rcases hil with (hA | hB2) | hC
          · exact absurd hA h1
          · exact absurd hB2 h2
          · exact ⟨hC.1, by simpa using hC.2⟩
        rw [hpc, show channelSwitch invalidTypeErrMsg tname fm.fname "cookie" ft.str
            (parseTags tag) hFD hB = .error (NewError tname fm.fname cookieWhitelistErrMsg) from by
          unfold channelSwitch
          rw [if_neg (by decide), if_neg (by decide), if_neg (by decide), if_pos rfl,
            if_neg (by simp [hwl])]]
        exact ⟨_, rfl⟩


/-- An illegal pairing on some reachable annotated field makes the
field walk return an error. -/
theorem anyIllegalPairing_error (pnf : String → String) :
    ∀ (tname : String) (flds : GoFields) (i : Nat) (hFD hB : Bool) (m : Int)
      (acc : List StructField),
      anyIllegalPairing flds = true →
      ∃ e, addFieldsAux pnf tname flds i hFD hB m acc = .error e := by
  intro tname flds i hFD hB m acc
  induction tname, flds, i, hFD, hB, m, acc using addFieldsAux.induct pnf with
  | case1 tname i hFD hB m acc =>
    intro hp
    exact absurd hp (by simp [anyIllegalPairing])
  | case2 tname fm rest i hFD hB m acc ststr tn1 sub hanon htag e hin ih =>
    intro hp
    exact ⟨e, by
      rw [addFieldsAux_cons_anon pnf tname ststr tn1 fm sub rest i hFD hB m acc hanon htag,
        hin]⟩
  | case3 tname fm rest i hFD hB m acc ststr tn1 sub hanon htag acc2 f1 f2 mm hin ih1 ih2 =>
    intro hp
    rw [anyIllegalPairing_cons_anon fm ststr tn1 sub rest hanon htag] at hp
    rw [Bool.or_eq_true] at hp
    rcases hp with hsub | hrest
    · obtain ⟨e, he⟩ := ih1 hsub
      rw [hin] at he
      exact Except.noConfusion he
    · obtain ⟨e, he⟩ := ih2 hrest
      exact ⟨e, by
        rw [addFieldsAux_cons_anon pnf tname ststr tn1 fm sub rest i hFD hB m acc hanon htag,
          hin]
        exact he⟩
  | case4 tname fm ft rest i hFD hB m acc htag hexc ih =>
    intro hp
    rw [anyIllegalPairing_cons_skip fm ft rest htag hexc] at hp
    obtain ⟨e, he⟩ := ih hp
    exact ⟨e, by
      rw [addFieldsAux_cons_skip pnf tname fm ft rest i hFD hB m acc htag hexc]
      exact he⟩
  | case5 tname fm ft rest i hFD hB m acc htag ih =>
    intro hp
    rw [anyIllegalPairing_cons_ignore fm ft rest htag] at hp
    obtain ⟨e, he⟩ := ih hp
    exact ⟨e, by
      rw [addFieldsAux_cons_ignore pnf tname fm ft rest i hFD hB m acc htag]
      exact he⟩
  | case6 tname fm ft rest i hFD hB m acc tag htag hig e hof =>
    intro hp
    exact ⟨e, by
      rw [addFieldsAux_cons_tagged pnf tname fm ft rest i hFD hB m acc tag htag hig, hof]⟩
  | case7 tname fm ft rest i hFD hB m acc tag htag hig f1 f2 mm fd hof ih =>
    intro hp
    rw [anyIllegalPairing_cons_tagged fm ft rest tag htag, Bool.or_eq_true] at hp
    rcases hp with hil | hrest
    · obtain ⟨e, he⟩ := addOneField_illegal pnf tname i fm ft tag hFD hB m htag hig hil
      rw [hof] at he
      exact Except.noConfusion he
    · obtain ⟨e, he⟩ := ih hrest
      exact ⟨e, by
        rw [addFieldsAux_cons_tagged pnf tname fm ft rest i hFD hB m acc tag htag hig, hof]
        exact he⟩

theorem not_pairingReason_of_ne (s : String)
    (h1 : s ≠ fileShapeErrMsg fileTypeString)
    (h2 : s ≠ cookieShapeErrMsg cookieTypeString)
    (h3 : s ≠ cookieShapeErrMsg fasthttpCookieTypeString)
    (h4 : s ≠ cookieWhitelistErrMsg) : ¬ pairingReason s :=
  fun hc => hc.elim h1 (fun hc2 => hc2.elim h2 (fun hc3 => hc3.elim h3 h4))

/-- Without an illegal pairing on any reachable annotated field, an
error of the field walk never carries a pairing-check reason. -/
theorem addFieldsAux_no_pairingReason (pnf : String → String) :
    ∀ (tname : String) (flds : GoFields) (i : Nat) (hFD hB : Bool) (m : Int)
      (acc : List StructField),
      anyIllegalPairing flds = false →
      ∀ e, addFieldsAux pnf tname flds i hFD hB m acc = .error e →
        ¬ pairingReason e.reason := by
  intro tname flds i hFD hB m acc
  induction tname, flds, i, hFD, hB, m, acc using addFieldsAux.induct pnf with
  | case1 tname i hFD hB m acc =>
    intro hA e he
    rw [addFieldsAux_nil] at he
    exact Except.noConfusion he
  | case2 tname fm rest i hFD hB m acc ststr tn1 sub hanon htag e0 hin ih =>
    intro hA e he
    rw [addFieldsAux_cons_anon pnf tname ststr tn1 fm sub rest i hFD hB m acc hanon htag,
      hin] at he
    obtain rfl := Except.error.inj he
    rw [anyIllegalPairing_cons_anon fm ststr tn1 sub rest hanon htag] at hA
    simp only [Bool.or_eq_false_iff] at hA
    exact ih hA.1 e0 hin
  | case3 tname fm rest i hFD hB m acc ststr tn1 sub hanon htag acc2 f1 f2 mm hin ih1 ih2 =>
    intro hA e he
    rw [addFieldsAux_cons_anon pnf tname ststr tn1 fm sub rest i hFD hB m acc hanon htag,
      hin] at he
    rw [anyIllegalPairing_cons_anon fm ststr tn1 sub rest hanon htag] at hA
    simp only [Bool.or_eq_false_iff] at hA
    exact ih2 hA.2 e he
  | case4 tname fm ft rest i hFD hB m acc htag hexc ih =>
    intro hA e he
    rw [addFieldsAux_cons_skip pnf tname fm ft rest i hFD hB m acc htag hexc] at he
    rw [anyIllegalPairing_cons_skip fm ft rest htag hexc] at hA
    exact ih hA e he
  | case5 tname fm ft rest i hFD hB m acc htag ih =>
    intro hA e he
    rw [addFieldsAux_cons_ignore pnf tname fm ft rest i hFD hB m acc htag] at he
    rw [anyIllegalPairing_cons_ignore fm ft rest htag] at hA
    exact ih hA e he
  | case6 tname fm ft rest i hFD hB m acc tag htag hig e0 hof =>
    intro hA e he
    rw [addFieldsAux_cons_tagged pnf tname fm ft rest i hFD hB m acc tag htag hig, hof] at he
    obtain rfl := Except.error.inj he
    rw [anyIllegalPairing_cons_tagged fm ft rest tag htag] at hA
    simp only [Bool.or_eq_false_iff] at hA
    have hch := fieldChannel_tagged fm tag htag hig
    rcases addOneField_error pnf tname i fm ft tag hFD hB m e0 hof with
      hr | ⟨hty, hne, hr⟩ | ⟨hty, hne, hr⟩ | hcs | hr
    · rw [hr]
      exact not_pairingReason_of_ne _ (by decide) (by decide) (by decide) (by decide)
    · exact absurd (show illegalPairing fm ft = true from by
        unfold illegalPairing
        rw [hch]
        dsimp only
        simp [hty, hne]) (by simp [hA.1])
    · exact absurd (show illegalPairing fm ft = true from by
        unfold illegalPairing
        rw [hch]
        dsimp only
        simp [hty, hne]) (by simp [hA.1])
    · rcases channelSwitch_error _ _ _ _ _ _ _ _ _ hcs with
        ⟨hpt, hBt, hr⟩ | ⟨hpt, hFDt, hr⟩ | ⟨hpt, hBt, hr⟩ | ⟨hpt, hwl, hr⟩ | hr
      · rw [hr]
        exact not_pairingReason_of_ne _ (by decide) (by decide) (by decide) (by decide)
      · rw [hr]
        exact not_pairingReason_of_ne _ (by decide) (by decide) (by decide) (by decide)
      · rw [hr]
        exact not_pairingReason_of_ne _ (by decide) (by decide) (by decide) (by decide)
      · exact absurd (show illegalPairing fm ft = true from by
          unfold illegalPairing
          rw [hch]
          dsimp only
          simp [hpt, hwl]) (by simp [hA.1])
      · rw [hr]
        exact not_pairingReason_of_ne _ (by decide) (by decide) (by decide) (by decide)
    · rw [hr]
      exact not_pairingReason_of_ne _ (by decide) (by decide) (by decide) (by decide)
  | case7 tname fm ft rest i hFD hB m acc tag htag hig f1 f2 mm fd hof ih =>
    intro hA e he
    rw [addFieldsAux_cons_tagged pnf tname fm ft rest i hFD hB m acc tag htag hig, hof] at he
    rw [anyIllegalPairing_cons_tagged fm ft rest tag htag] at hA
    simp only [Bool.or_eq_false_iff] at hA
    exact ih hA.2 e he


/-- Claim C6: schema compilation fails whenever a reachable annotated
field has an illegal shape/channel pairing — a file-shaped field off
the formData channel, a cookie-record-shaped field off the cookie
channel, or a cookie-channel field whose shape is outside the
whitelist — and when no reachable annotated field has an illegal
pairing, a compilation error never carries one of the pairing-check
reasons. -/
theorem pairing_checks (pnf : String → String) (tstr : String) (flds : GoFields) :
    (anyIllegalPairing flds = true → ∃ e, addFields pnf tstr flds = .error e) ∧
    (anyIllegalPairing flds = false →
      ∀ e, addFields pnf tstr flds = .error e → ¬ pairingReason e.reason) := by
  constructor
  · intro hc
    unfold addFields
    obtain ⟨e, he⟩ := anyIllegalPairing_error pnf tstr flds 0 false false 0 [] hc
    exact ⟨e, by rw [he]⟩
  · intro hc e he
    unfold addFields at he
    cases haux : addFieldsAux pnf tstr flds 0 false false 0 [] with
    | error e2 =>
      rw [haux] at he
      obtain rfl := Except.error.inj he
      exact addFieldsAux_no_pairingReason pnf tstr flds 0 false false 0 [] hc e2 haux
    | ok out =>
      obtain ⟨acc, b1, b2, mx⟩ := out
      rw [haux] at he
      exact Except.noConfusion he

/-- Witness for C6: a file-shaped query field fails compilation, and a
legal schema that fails for a channel-name reason does not produce a
pairing-check message. -/
theorem pairing_checks_witness :
    (∃ e, addFields identName "apiware.F" c6FileFields = .error e) ∧
    ¬ pairingReason (NewError "apiware.T2" "X" invalidTypeErrMsg).reason :=
  ⟨(pairing_checks identName "apiware.F" c6FileFields).1 (by decide),
   (pairing_checks identName "apiware.T2" bogusChannelFields).2 (by decide)
     (NewError "apiware.T2" "X" invalidTypeErrMsg) (by decide)⟩

end Apiware
